import Mathlib

/-
Verification of the CytoLens API core against its specification.

The definitions below are a shallow embedding of the relevant parts of the
source tree:
  - src/utils/slide_utils.py   (Deep-Zoom geometry, tile rendering, resource
                                materialization and its download coordination)
  - src/utils/postgres_utils.py (task record store operations)
  - src/api/services/inference.py (task lifecycle: start/cancel/webhook,
                                predictions retrieval)
  - src/api/services/viewer.py  (viewer predictions retrieval)
  - src/core/constants.py, src/core/config.py (constants)

Python machine floats are modelled exactly (by ℚ for downsample factors and
scale ratios, and by exact ceiling/floor arithmetic for `math.ceil` /
`math.log2` on the integer ranges that occur here).  Python exceptions are
modelled by an explicit error type carried in `Except`.  The current UTC time
returned by `sys_utils.get_utc_timestamp` (which is called by the services but
has no definition under src/utils/sys_utils.py) is modelled from the spec as
an abstract timestamp string parameter `now` supplied to each stateful
operation.
-/

namespace CytoLens

/-- Python exception classes that the embedded code can raise.  A bare
`raise ValueError` (as in `gpu_render_tile`) carries the empty message, since
`str(ValueError()) = ""`.  `clientError` stands for `botocore` transport
errors propagated by `aws_utils.download_file`. -/
inductive PyExc where
  | valueError (msg : String)
  | typeError (msg : String)
  | attributeError (msg : String)
  | clientError (msg : String)
  | indexError (msg : String)
  | zeroDivisionError
deriving DecidableEq, Repr

/-- Task states, from `core/constants.py` (`TaskState`). -/
def TaskState.PENDING : String := "PENDING"

def TaskState.STARTED : String := "STARTED"

def TaskState.SUCCESS : String := "SUCCESS"

def TaskState.FAILURE : String := "FAILURE"

def TaskState.REVOKED : String := "REVOKED"

/-- Terminal states, from `core/constants.py`: `TERMINAL = [SUCCESS, FAILURE, REVOKED]`. -/
def TaskState.TERMINAL : List String :=
  [TaskState.SUCCESS, TaskState.FAILURE, TaskState.REVOKED]

/-- All valid states, from `core/constants.py`. -/
def TaskState.ALL : List String :=
  [TaskState.PENDING, TaskState.STARTED, TaskState.SUCCESS,
   TaskState.FAILURE, TaskState.REVOKED]

/-- Error messages from `core/constants.py` (`ErrorMessage`). -/
def ErrorMessage.INVALID_STATE : String := "Invalid state"

def ErrorMessage.INVALID_TASK_ID : String := "Invalid task ID"

def ErrorMessage.RESOURCE_NOT_FOUND : String := "Resource not found"

def ErrorMessage.UNAUTHORIZED : String := "Unauthorized"

/-- Task messages from `core/constants.py` (`TaskMessage`). -/
def TaskMessage.QUEUED : String := "Inference task queued"

def TaskMessage.CANCELLED : String := "Inference task cancelled"

/-- Models `TaskMessage.ALREADY_TERMINAL.format(state.lower())`, i.e. the
template `Task already ...` filled with the lower-cased state. -/
def TaskMessage.alreadyTerminal (state : String) : String :=
  "Task already " ++ state.toLower

def TaskMessage.STATUS_UPDATED : String := "Task status updated"

/-- `config.settings.tile_size` (`core/config.py`). -/
def tile_size : Nat := 512

/-! ## Deep-Zoom pyramid geometry (`_load_slide_info`, slide_utils.py) -/

/-- Exact value of Python `math.ceil(a / b)` for naturals with `b > 0`. -/
def ceilDiv (a b : Nat) : Nat := (a + b - 1) / b

/-- Models `max_level = math.ceil(math.log2(max_dim))` in `_load_slide_info`,
with the float `log2` taken exactly: `Nat.clog 2` is the ceiling of the base-2
logarithm. -/
def maxLevelOf (full_width full_height : Nat) : Nat :=
  Nat.clog 2 (max full_width full_height)

/-- Models the Deep-Zoom dimension table built by `_load_slide_info`:
for `level` in `range(0, max_level + 1)`, `scale = 2 ** (max_level - level)`
and the entry is `(ceil(w / scale), ceil(h / scale))`. -/
def dzDimsOf (full_width full_height : Nat) : List (Nat × Nat) :=
  (List.range (maxLevelOf full_width full_height + 1)).map (fun level =>
    let scale := 2 ^ (maxLevelOf full_width full_height - level)
    (ceilDiv full_width scale, ceilDiv full_height scale))

/-! ## Best native pyramid level (`_best_slide_level`, slide_utils.py) -/

/-- Loop of `_best_slide_level`: `lvl = 0; for i, ds in enumerate(downs):
if ds <= ds_needed: lvl = i else: break; return lvl`.  `i` is the index of the
head of the remaining list and `lvl` the current best index. -/
def bestLevelGo (ds_needed : ℚ) : List ℚ → Nat → Nat → Nat
  | [], _, lvl => lvl
  | ds :: rest, i, lvl =>
      if ds ≤ ds_needed then bestLevelGo ds_needed rest (i + 1) i else lvl

/-- Models `_best_slide_level(level_downsamples, ds_needed)`. -/
def best_slide_level (level_downsamples : List ℚ) (ds_needed : ℚ) : Nat :=
  bestLevelGo ds_needed level_downsamples 0 0

/-- Length of the longest prefix of the downsample list whose entries are all
at most the needed scale; characterizes the loop of `_best_slide_level`. -/
def prefLen (ds_needed : ℚ) : List ℚ → Nat
  | [] => 0
  | ds :: rest => if ds ≤ ds_needed then prefLen ds_needed rest + 1 else 0

theorem bestLevelGo_eq_prefLen (ds_needed : ℚ) (l : List ℚ) :
    ∀ i lvl, bestLevelGo ds_needed l i lvl =
      if prefLen ds_needed l = 0 then lvl else i + prefLen ds_needed l - 1 := by
  induction l with
  | nil => intro i lvl; simp [bestLevelGo, prefLen]
  | cons ds rest ih =>
      intro i lvl
      by_cases hds : ds ≤ ds_needed
      · rw [bestLevelGo, if_pos hds, ih (i + 1) i, prefLen, if_pos hds]
        by_cases hz : prefLen ds_needed rest = 0
        · simp [hz]
        · rw [if_neg hz, if_neg (by omega)]
          omega
      · rw [bestLevelGo, if_neg hds, prefLen, if_neg hds]
        simp

theorem best_slide_level_eq (level_downsamples : List ℚ) (ds_needed : ℚ) :
    best_slide_level level_downsamples ds_needed =
      if prefLen ds_needed level_downsamples = 0 then 0
      else prefLen ds_needed level_downsamples - 1 := by
  rw [best_slide_level, bestLevelGo_eq_prefLen]
  by_cases h : prefLen ds_needed level_downsamples = 0 <;> simp [h]

theorem prefLen_le_length (ds_needed : ℚ) (l : List ℚ) :
    prefLen ds_needed l ≤ l.length := by
  induction l with
  | nil => simp [prefLen]
  | cons ds rest ih =>
      rw [prefLen]
      by_cases h : ds ≤ ds_needed <;> simp [h] <;> omega

theorem prefLen_mem_le (ds_needed : ℚ) (l : List ℚ) :
    ∀ j, j < prefLen ds_needed l → l.getD j 0 ≤ ds_needed := by
  induction l with
  | nil => intro j hj; simp [prefLen] at hj
  | cons ds rest ih =>
      intro j hj
      rw [prefLen] at hj
      by_cases h : ds ≤ ds_needed
      · rw [if_pos h] at hj
        cases j with
        | zero => simpa using h
        | succ k => simpa using ih k (by omega)
      · rw [if_neg h] at hj; omega

theorem prefLen_boundary (ds_needed : ℚ) (l : List ℚ) :
    prefLen ds_needed l < l.length → ¬ l.getD (prefLen ds_needed l) 0 ≤ ds_needed := by
  induction l with
  | nil => intro h; simp at h
  | cons ds rest ih =>
      intro hlt
      rw [prefLen] at hlt ⊢
      by_cases h : ds ≤ ds_needed
      · rw [if_pos h] at hlt ⊢
        simpa using ih (by simpa using hlt)
      · rw [if_neg h] at hlt ⊢
        simpa using h

theorem best_slide_level_lt_length (level_downsamples : List ℚ) (ds_needed : ℚ)
    (h : level_downsamples ≠ []) :
    best_slide_level level_downsamples ds_needed < level_downsamples.length := by
  rw [best_slide_level_eq]
  have hlen : 0 < level_downsamples.length := List.length_pos.mpr h
  have hle := prefLen_le_length ds_needed level_downsamples
  by_cases hz : prefLen ds_needed level_downsamples = 0 <;> simp [hz] <;> omega

theorem sorted_getD_mono (l : List ℚ) (hs : l.Pairwise (· ≤ ·)) :
    ∀ i j, i ≤ j → j < l.length → l.getD i 0 ≤ l.getD j 0 := by
  intro i j hij hj
  rcases Nat.lt_or_ge i j with hlt | hge
  · have hi : i < l.length := lt_trans hlt hj
    rw [List.getD_eq_getElem l 0 hi, List.getD_eq_getElem l 0 hj]
    exact List.pairwise_iff_getElem.mp hs i j hi hj hlt
  · have : i = j := le_antisymm hij hge
    subst this
    exact le_refl _

theorem maxLevelOf_10000_8000 : maxLevelOf 10000 8000 = 14 := by
  have hmax : max 10000 8000 = 10000 := by decide
  rw [maxLevelOf, hmax]
  refine le_antisymm ?_ ?_
  · exact (Nat.le_pow_iff_clog_le (by norm_num)).mp (by norm_num)
  · have h13 : (2 : Nat) ^ 13 < 10000 := by norm_num
    exact (Nat.pow_lt_iff_lt_clog (by norm_num)).mp h13

/-- C3: for every opened image with native width and height (both positive),
the derived Deep-Zoom pyramid of `_load_slide_info` has exactly
`ceil(log2(max(width, height))) + 1` levels (`Nat.clog 2` is the exact
ceiling base-2 logarithm, certified here by the bracketing
`maxdim ≤ 2 ^ maxLevel` and `2 ^ (maxLevel - 1) < maxdim`), and level `L`
has dimensions `ceil(w / 2 ^ (maxLevel - L))` by `ceil(h / 2 ^ (maxLevel - L))`;
for width 10000 and height 8000, `maxLevel = 14`, level 14 has dimensions
`(10000, 8000)` and level 0 has dimensions `(1, 1)`. -/
theorem C3_deep_zoom_pyramid (w h : Nat) (hw : 1 ≤ w) (hh : 1 ≤ h) :
    (dzDimsOf w h).length = Nat.clog 2 (max w h) + 1 ∧
    max w h ≤ 2 ^ maxLevelOf w h ∧
    (1 < max w h → 2 ^ (maxLevelOf w h - 1) < max w h) ∧
    (∀ L, L < (dzDimsOf w h).length →
      (dzDimsOf w h).getD L (0, 0) =
        (ceilDiv w (2 ^ (maxLevelOf w h - L)), ceilDiv h (2 ^ (maxLevelOf w h - L)))) ∧
    maxLevelOf 10000 8000 = 14 ∧
    (dzDimsOf 10000 8000).getD 14 (0, 0) = (10000, 8000) ∧
    (dzDimsOf 10000 8000).getD 0 (0, 0) = (1, 1) := by
  refine ⟨?_, ?_, ?_, ?_, ?_, ?_, ?_⟩
  · simp [dzDimsOf, maxLevelOf]
  · exact Nat.le_pow_clog (by norm_num) _
  · intro hx
    exact Nat.pow_pred_clog_lt_self (by norm_num) hx
  · intro L hL
    rw [List.getD_eq_getElem _ _ hL]
    simp only [dzDimsOf, List.getElem_map, List.getElem_range]
  · exact maxLevelOf_10000_8000
  · rw [dzDimsOf, maxLevelOf_10000_8000]; decide
  · rw [dzDimsOf, maxLevelOf_10000_8000]; decide

/-- Witness instantiating `C3_deep_zoom_pyramid` at width 10000, height 8000. -/
theorem C3_deep_zoom_pyramid_witness :
    (1 ≤ 10000 ∧ 1 ≤ 8000) ∧
    ((dzDimsOf 10000 8000).length = Nat.clog 2 (max 10000 8000) + 1 ∧
      max 10000 8000 ≤ 2 ^ maxLevelOf 10000 8000) :=
  ⟨⟨by decide, by decide⟩,
    ⟨(C3_deep_zoom_pyramid 10000 8000 (by decide) (by decide)).1,
     (C3_deep_zoom_pyramid 10000 8000 (by decide) (by decide)).2.1⟩⟩

/-- C6: for a native downsample table (per-level factors are non-decreasing as
they are in a native pyramid) containing at least one factor at most the
requested scale, `_best_slide_level` selects a valid level whose downsample
factor is the largest among those at most the requested scale (so any level
whose factor is at most the scale has a factor at most the selected one; among
levels of equal factor neither is distinguished by downsample, so the choice
satisfies the tie rule vacuously). -/
theorem C6_best_native_level (downs : List ℚ) (ds_needed : ℚ)
    (hs : downs.Pairwise (· ≤ ·)) (hne : downs ≠ [])
    (hhead : downs.getD 0 0 ≤ ds_needed) :
    best_slide_level downs ds_needed < downs.length ∧
    downs.getD (best_slide_level downs ds_needed) 0 ≤ ds_needed ∧
    (∀ i, i < downs.length → downs.getD i 0 ≤ ds_needed →
      downs.getD i 0 ≤ downs.getD (best_slide_level downs ds_needed) 0) := by
  have hlen : 0 < downs.length := List.length_pos.mpr hne
  have hpz : 0 < prefLen ds_needed downs := by
    cases downs with
    | nil => exact absurd rfl hne
    | cons d rest =>
        rw [prefLen]
        rw [if_pos (by simpa using hhead)]
        omega
  have hple := prefLen_le_length ds_needed downs
  have hbest : best_slide_level downs ds_needed = prefLen ds_needed downs - 1 := by
    rw [best_slide_level_eq, if_neg (by omega)]
  have hblt : best_slide_level downs ds_needed < downs.length := by omega
  refine ⟨hblt, ?_, ?_⟩
  · rw [hbest]
    exact prefLen_mem_le ds_needed downs _ (by omega)
  · intro i hi hile
    rcases le_or_lt i (best_slide_level downs ds_needed) with hle | hgt
    · exact sorted_getD_mono downs hs i _ hle hblt
    · -- i is past the selected index, hence at or past the prefix boundary,
      -- where factors exceed the needed scale: contradiction with hile.
      have hge : prefLen ds_needed downs ≤ i := by omega
      have hbd : prefLen ds_needed downs < downs.length := by omega
      have hgtneed : ¬ downs.getD (prefLen ds_needed downs) 0 ≤ ds_needed :=
        prefLen_boundary ds_needed downs hbd
      have hmono := sorted_getD_mono downs hs (prefLen ds_needed downs) i hge hi
      exact absurd (le_trans hmono hile) hgtneed

/-- Witness instantiating `C6_best_native_level` on the table
`[1, 2, 4, 8]` with requested scale `5`: level 2 (factor 4) is selected. -/
theorem C6_best_native_level_witness :
    best_slide_level [(1 : ℚ), 2, 4, 8] 5 < 4 ∧
    ([(1 : ℚ), 2, 4, 8].getD (best_slide_level [(1 : ℚ), 2, 4, 8] 5) 0 ≤ (5 : ℚ)) :=
  ⟨(C6_best_native_level [(1 : ℚ), 2, 4, 8] 5 (by norm_num) (by simp) (by norm_num)).1,
   (C6_best_native_level [(1 : ℚ), 2, 4, 8] 5 (by norm_num) (by simp) (by norm_num)).2.1⟩

/-! ## Tile renderer (`gpu_render_tile`, slide_utils.py) -/

/-- An RGB pixel. -/
structure Pix where
  r : Nat
  g : Nat
  b : Nat
deriving DecidableEq, Repr

/-- The zero pixel, as produced by `cp.zeros`. -/
def Pix.zero : Pix := ⟨0, 0, 0⟩

/-- Channel reversal `cp.asarray(region)[:, :, ::-1]`. -/
def Pix.bgr (p : Pix) : Pix := ⟨p.b, p.g, p.r⟩

/-- A pixel buffer: height, width, and the pixel at each (row, column). -/
structure TileBuffer where
  height : Nat
  width : Nat
  px : Nat → Nat → Pix

/-- Abstract decode/resample/encode backend behind `slide.read_region`,
`cucim.skimage.transform.resize` and `NvJpeg.encode`; the renderer's geometry
must not depend on which backend performs the pixel work (spec section 4.3).
`readRegion loc size lvl` is the decoded region as a (row, column) pixel map,
`regionDims loc size lvl` its decoded pixel dimensions `(width, height)`
(`shape[1], shape[0]`), `resample img (outH, outW)` the range-preserving
resize, and `encode` the fixed-quality JPEG encoding. -/
structure ImageOps where
  readRegion : ℤ × ℤ → ℤ × ℤ → Nat → (Nat → Nat → Pix)
  regionDims : ℤ × ℤ → ℤ × ℤ → Nat → ℤ × ℤ
  resample : (Nat → Nat → Pix) → ℤ × ℤ → (Nat → Nat → Pix)
  encode : TileBuffer → List Nat

/-- Exact value of Python `int(q)` on a rational: truncation toward zero. -/
def ratTrunc (q : ℚ) : ℤ := Int.div q.num (q.den : ℤ)

/-- Models `gpu_render_tile` (slide_utils.py) up to, and excluding, the final
`nj.encode` call, following the source line by line: the level validation and
tile-origin bounds checks (both a bare `raise ValueError`), the visible
extent `tw, th`, the scale factors (a Python `ZeroDivisionError` if a level
dimension is zero), the base-level region coordinates, the best native level
and its downsample factor (an `IndexError` if the downsample table is empty,
a `ZeroDivisionError` if the selected factor is zero), the conditional
resample to `(tw, th)`, and the zero-padding of edge tiles to a
`tile_size` by `tile_size` buffer. -/
def gpu_render_tile_buffer (ops : ImageOps) (full_width full_height : Nat)
    (level_downsamples : List ℚ) (dz_dims : List (Nat × Nat))
    (level col row : ℤ) : Except PyExc TileBuffer :=
  if level < 0 ∨ (dz_dims.length : ℤ) ≤ level then Except.error (PyExc.valueError "")
  else
    let lvl_w : ℤ := ((dz_dims.getD level.toNat (0, 0)).1 : ℤ)
    let lvl_h : ℤ := ((dz_dims.getD level.toNat (0, 0)).2 : ℤ)
    let x : ℤ := col * (tile_size : ℤ)
    let y : ℤ := row * (tile_size : ℤ)
    if lvl_w ≤ x ∨ lvl_h ≤ y then Except.error (PyExc.valueError "")
    else
      let tw : ℤ := min (tile_size : ℤ) (lvl_w - x)
      let th : ℤ := min (tile_size : ℤ) (lvl_h - y)
      if lvl_w = 0 ∨ lvl_h = 0 then Except.error PyExc.zeroDivisionError
      else
        let scale_x : ℚ := (full_width : ℚ) / ((lvl_w : ℚ))
        let scale_y : ℚ := (full_height : ℚ) / ((lvl_h : ℚ))
        let bx : ℤ := ratTrunc ((x : ℚ) * scale_x)
        let by0 : ℤ := ratTrunc ((y : ℚ) * scale_y)
        let bw : ℤ := Int.ceil ((tw : ℚ) * scale_x)
        let bh : ℤ := Int.ceil ((th : ℚ) * scale_y)
        let slide_lvl : Nat := best_slide_level level_downsamples (max scale_x scale_y)
        match level_downsamples.get? slide_lvl with
        | none => Except.error (PyExc.indexError "")
        | some ds =>
            if ds = 0 then Except.error PyExc.zeroDivisionError
            else
              let rw0 : ℤ := Int.ceil ((bw : ℚ) / ds)
              let rh0 : ℤ := Int.ceil ((bh : ℚ) / ds)
              let gpu_img : Nat → Nat → Pix := fun i j =>
                Pix.bgr (ops.readRegion (bx, by0) (rw0, rh0) slide_lvl i j)
              let content : Nat → Nat → Pix :=
                if ops.regionDims (bx, by0) (rw0, rh0) slide_lvl ≠ (tw, th)
                then ops.resample gpu_img (th, tw)
                else gpu_img
              if tw ≠ (tile_size : ℤ) ∨ th ≠ (tile_size : ℤ) then
                Except.ok ⟨tile_size, tile_size, fun i j =>
                  if i < th.toNat ∧ j < tw.toNat then content i j else Pix.zero⟩
              else Except.ok ⟨tile_size, tile_size, content⟩

/-- Models `gpu_render_tile` including the final JPEG encode. -/
def gpu_render_tile (ops : ImageOps) (full_width full_height : Nat)
    (level_downsamples : List ℚ) (dz_dims : List (Nat × Nat))
    (level col row : ℤ) : Except PyExc (List Nat) :=
  (gpu_render_tile_buffer ops full_width full_height level_downsamples dz_dims
    level col row).map ops.encode

/-- The visible tile extent `(tw, th)` computed by `gpu_render_tile`. -/
def renderedExtent (dz_dims : List (Nat × Nat)) (level col row : ℤ) : ℤ × ℤ :=
  (min (tile_size : ℤ) (((dz_dims.getD level.toNat (0, 0)).1 : ℤ) - col * (tile_size : ℤ)),
   min (tile_size : ℤ) (((dz_dims.getD level.toNat (0, 0)).2 : ℤ) - row * (tile_size : ℤ)))

/-- The rendered (post-resample, pre-padding) tile content computed by
`gpu_render_tile`, recomputed for use in specifications; the empty downsample
table case takes the factor 0 default and is excluded by the theorems below. -/
def renderedContent (ops : ImageOps) (full_width full_height : Nat)
    (level_downsamples : List ℚ) (dz_dims : List (Nat × Nat))
    (level col row : ℤ) : Nat → Nat → Pix :=
  let lvl_w : ℤ := ((dz_dims.getD level.toNat (0, 0)).1 : ℤ)
  let lvl_h : ℤ := ((dz_dims.getD level.toNat (0, 0)).2 : ℤ)
  let x : ℤ := col * (tile_size : ℤ)
  let y : ℤ := row * (tile_size : ℤ)
  let tw : ℤ := min (tile_size : ℤ) (lvl_w - x)
  let th : ℤ := min (tile_size : ℤ) (lvl_h - y)
  let scale_x : ℚ := (full_width : ℚ) / ((lvl_w : ℚ))
  let scale_y : ℚ := (full_height : ℚ) / ((lvl_h : ℚ))
  let bx : ℤ := ratTrunc ((x : ℚ) * scale_x)
  let by0 : ℤ := ratTrunc ((y : ℚ) * scale_y)
  let bw : ℤ := Int.ceil ((tw : ℚ) * scale_x)
  let bh : ℤ := Int.ceil ((th : ℚ) * scale_y)
  let slide_lvl : Nat := best_slide_level level_downsamples (max scale_x scale_y)
  let ds : ℚ := level_downsamples.getD slide_lvl 0
  let rw0 : ℤ := Int.ceil ((bw : ℚ) / ds)
  let rh0 : ℤ := Int.ceil ((bh : ℚ) / ds)
  let gpu_img : Nat → Nat → Pix := fun i j =>
    Pix.bgr (ops.readRegion (bx, by0) (rw0, rh0) slide_lvl i j)
  if ops.regionDims (bx, by0) (rw0, rh0) slide_lvl ≠ (tw, th)
  then ops.resample gpu_img (th, tw)
  else gpu_img

/-- Every Deep-Zoom level of a positive-dimension image has positive
dimensions. -/
theorem dzDims_pos (w h : Nat) (hw : 1 ≤ w) (hh : 1 ≤ h) :
    ∀ L, L < (dzDimsOf w h).length →
      1 ≤ ((dzDimsOf w h).getD L (0, 0)).1 ∧ 1 ≤ ((dzDimsOf w h).getD L (0, 0)).2 := by
  intro L hL
  rw [List.getD_eq_getElem _ _ hL]
  simp only [dzDimsOf, List.getElem_map, List.getElem_range]
  have hb : 0 < 2 ^ (maxLevelOf w h - L) := Nat.two_pow_pos _
  constructor
  · rw [ceilDiv, Nat.one_le_div_iff hb]
    omega
  · rw [ceilDiv, Nat.one_le_div_iff hb]
    omega

/-- On a valid, in-bounds tile request with a nonempty table of nonzero
downsample factors, the renderer succeeds and, for an edge tile, returns the
`tile_size` by `tile_size` buffer holding the rendered content at the top-left
origin and zero elsewhere. -/
theorem render_ok (ops : ImageOps) (w h : Nat) (downs : List ℚ)
    (level col row : ℤ)
    (hw : 1 ≤ w) (hh : 1 ≤ h)
    (h0 : 0 ≤ level) (hlt : level < ((dzDimsOf w h).length : ℤ))
    (hx : col * (tile_size : ℤ) < (((dzDimsOf w h).getD level.toNat (0, 0)).1 : ℤ))
    (hy : row * (tile_size : ℤ) < (((dzDimsOf w h).getD level.toNat (0, 0)).2 : ℤ))
    (hne : downs ≠ []) (hpos : ∀ d ∈ downs, d ≠ 0) :
    ∃ buf : TileBuffer,
      gpu_render_tile_buffer ops w h downs (dzDimsOf w h) level col row = Except.ok buf ∧
      buf.height = tile_size ∧ buf.width = tile_size ∧
      (renderedExtent (dzDimsOf w h) level col row ≠ ((tile_size : ℤ), (tile_size : ℤ)) →
        buf.px = fun i j =>
          if i < (renderedExtent (dzDimsOf w h) level col row).2.toNat ∧
             j < (renderedExtent (dzDimsOf w h) level col row).1.toNat
          then renderedContent ops w h downs (dzDimsOf w h) level col row i j
          else Pix.zero) := by
  have hlen : level.toNat < (dzDimsOf w h).length := by omega
  obtain ⟨hW1, hH1⟩ := dzDims_pos w h hw hh level.toNat hlen
  have hsl : ∀ q : ℚ, best_slide_level downs q < downs.length :=
    fun q => best_slide_level_lt_length downs q hne
  simp only [gpu_render_tile_buffer]
  rw [if_neg (by omega :
    ¬(level < 0 ∨ ((dzDimsOf w h).length : ℤ) ≤ level))]
  rw [if_neg (by omega :
    ¬((((dzDimsOf w h).getD level.toNat (0, 0)).1 : ℤ) ≤ col * (tile_size : ℤ) ∨
      (((dzDimsOf w h).getD level.toNat (0, 0)).2 : ℤ) ≤ row * (tile_size : ℤ)))]
  rw [if_neg (by omega :
    ¬((((dzDimsOf w h).getD level.toNat (0, 0)).1 : ℤ) = 0 ∨
      (((dzDimsOf w h).getD level.toNat (0, 0)).2 : ℤ) = 0))]
  have hget : ∀ q : ℚ, downs.get? (best_slide_level downs q) =
      some (downs.getD (best_slide_level downs q) 0) := by
    intro q
    rw [List.getD_eq_getElem _ _ (hsl q), List.get?_eq_getElem?,
      List.getElem?_eq_getElem (hsl q)]
  split
  case h_1 heq =>
    exact absurd (List.get?_eq_none.mp heq) (not_le.mpr (hsl _))
  case h_2 ds heq =>
  have hds2 : downs.getD (best_slide_level downs _) 0 = ds :=
    Option.some.inj ((hget _).symm.trans heq)
  rw [if_neg (hpos ds (List.get?_mem heq))]
  by_cases hpad :
      min (tile_size : ℤ) ((((dzDimsOf w h).getD level.toNat (0, 0)).1 : ℤ) -
          col * (tile_size : ℤ)) ≠ (tile_size : ℤ) ∨
      min (tile_size : ℤ) ((((dzDimsOf w h).getD level.toNat (0, 0)).2 : ℤ) -
          row * (tile_size : ℤ)) ≠ (tile_size : ℤ)
  · rw [if_pos hpad]
    refine ⟨_, rfl, rfl, rfl, fun _ => ?_⟩
    simp only [renderedExtent, renderedContent]
    rw [hds2]
  · rw [if_neg hpad]
    refine ⟨_, rfl, rfl, rfl, fun hne2 => ?_⟩
    exfalso
    apply hne2
    simp only [renderedExtent]
    push_neg at hpad
    rw [hpad.1, hpad.2]

/-- A trivial concrete pixel backend, for evaluating the renderer's geometry
at concrete inputs. -/
def constOps : ImageOps :=
  ⟨fun _ _ _ => fun _ _ => Pix.zero, fun _ _ _ => (0, 0), fun f _ => f, fun _ => []⟩

/-- C4 counterexample: the two validation failures of `gpu_render_tile` are
not distinguishable.  An invalid level (15 on a 15-level pyramid) and an
out-of-bounds tile origin (column 20 at level 14 on a 10000-wide level) both
raise the very same bare `ValueError`, so the failures cannot be told apart
as `InvalidLevel` versus `TileOutOfBounds`. -/
theorem C4_counterexample :
    gpu_render_tile constOps 10000 8000 [1] (dzDimsOf 10000 8000) 15 0 0 =
      Except.error (PyExc.valueError "") ∧
    gpu_render_tile constOps 10000 8000 [1] (dzDimsOf 10000 8000) 14 20 0 =
      Except.error (PyExc.valueError "") ∧
    gpu_render_tile constOps 10000 8000 [1] (dzDimsOf 10000 8000) 15 0 0 =
      gpu_render_tile constOps 10000 8000 [1] (dzDimsOf 10000 8000) 14 20 0 := by
  refine ⟨?_, ?_, ?_⟩ <;>
    · simp only [gpu_render_tile, gpu_render_tile_buffer, dzDimsOf, maxLevelOf_10000_8000]
      rfl

/-- C4 (amended): `gpu_render_tile` fails exactly when the requested level is
outside `0 ≤ level < len(dz_dims)` or (for a valid level) the tile origin
`(col * T, row * T)` lies at or beyond the level's dimensions; both failures
raise the same bare `ValueError`, so they are not distinguishable as the
spec's `InvalidLevel` versus `TileOutOfBounds`.  Stated for the Deep-Zoom
geometry derived from a positive-dimension image and a nonempty table of
nonzero downsample factors. -/
theorem C4_validation_errors (ops : ImageOps) (w h : Nat) (downs : List ℚ)
    (level col row : ℤ)
    (hw : 1 ≤ w) (hh : 1 ≤ h)
    (hne : downs ≠ []) (hpos : ∀ d ∈ downs, d ≠ 0) :
    ((∃ e, gpu_render_tile ops w h downs (dzDimsOf w h) level col row = Except.error e) ↔
      ((level < 0 ∨ ((dzDimsOf w h).length : ℤ) ≤ level) ∨
       (0 ≤ level ∧ level < ((dzDimsOf w h).length : ℤ) ∧
         ((((dzDimsOf w h).getD level.toNat (0, 0)).1 : ℤ) ≤ col * (tile_size : ℤ) ∨
          (((dzDimsOf w h).getD level.toNat (0, 0)).2 : ℤ) ≤ row * (tile_size : ℤ))))) ∧
    (∀ e, gpu_render_tile ops w h downs (dzDimsOf w h) level col row = Except.error e →
      e = PyExc.valueError "") := by
  by_cases h1 : level < 0 ∨ ((dzDimsOf w h).length : ℤ) ≤ level
  · have hres : gpu_render_tile ops w h downs (dzDimsOf w h) level col row =
        Except.error (PyExc.valueError "") := by
      simp only [gpu_render_tile, gpu_render_tile_buffer, if_pos h1]
      rfl
    refine ⟨⟨fun _ => Or.inl h1, fun _ => ⟨_, hres⟩⟩, fun e he => ?_⟩
    rw [hres] at he
    injection he with h
    exact h.symm
  · push_neg at h1
    obtain ⟨h0, hlt⟩ := h1
    by_cases h2 :
        (((dzDimsOf w h).getD level.toNat (0, 0)).1 : ℤ) ≤ col * (tile_size : ℤ) ∨
        (((dzDimsOf w h).getD level.toNat (0, 0)).2 : ℤ) ≤ row * (tile_size : ℤ)
    · have hres : gpu_render_tile ops w h downs (dzDimsOf w h) level col row =
          Except.error (PyExc.valueError "") := by
        simp only [gpu_render_tile, gpu_render_tile_buffer]
        rw [if_neg (by omega : ¬(level < 0 ∨ ((dzDimsOf w h).length : ℤ) ≤ level)),
          if_pos h2]
        rfl
      refine ⟨⟨fun _ => Or.inr ⟨h0, hlt, h2⟩, fun _ => ⟨_, hres⟩⟩, fun e he => ?_⟩
      rw [hres] at he
      injection he with h
      exact h.symm
    · push_neg at h2
      obtain ⟨buf, hbuf, -, -, -⟩ :=
        render_ok ops w h downs level col row hw hh h0 hlt h2.1 h2.2 hne hpos
      have hres : gpu_render_tile ops w h downs (dzDimsOf w h) level col row =
          Except.ok (ops.encode buf) := by
        rw [gpu_render_tile, hbuf]
        rfl
      constructor
      · constructor
        · rintro ⟨e, he⟩
          rw [hres] at he
          exact absurd he (by simp)
        · rintro (hbad | ⟨-, -, hbad⟩)
          · omega
          · rcases hbad with hb | hb
            · exact absurd hb (not_le.mpr h2.1)
            · exact absurd hb (not_le.mpr h2.2)
      · intro e he
        rw [hres] at he
        exact absurd he (by simp)

/-- Witness instantiating `C4_validation_errors`: level 15 on the 15-level
pyramid of a 10000 by 8000 image fails. -/
theorem C4_validation_errors_witness :
    ∃ e, gpu_render_tile constOps 10000 8000 [1] (dzDimsOf 10000 8000) 15 0 0 =
      Except.error e :=
  (C4_validation_errors constOps 10000 8000 [1] 15 0 0 (by decide) (by decide)
    (by decide) (by decide)).1.mpr
    (Or.inl (by simp only [dzDimsOf, maxLevelOf_10000_8000]; decide))

/-- C5: on a valid, in-bounds tile request the visible tile extent is
`(tw, th) = (min(T, lvlW - x), min(T, lvlH - y))`; when `(tw, th)` differs
from `(T, T)` the renderer returns a `T` by `T` buffer with the rendered
content placed at the top-left origin and every remaining pixel zero; and on
a 10000 by 8000 image the tile at level 14, column 19, row 15 with `T = 512`
has visible extent `(272, 320)`. -/
theorem C5_visible_extent_and_padding (ops : ImageOps) (w h : Nat) (downs : List ℚ)
    (level col row : ℤ)
    (hw : 1 ≤ w) (hh : 1 ≤ h)
    (h0 : 0 ≤ level) (hlt : level < ((dzDimsOf w h).length : ℤ))
    (hx : col * (tile_size : ℤ) < (((dzDimsOf w h).getD level.toNat (0, 0)).1 : ℤ))
    (hy : row * (tile_size : ℤ) < (((dzDimsOf w h).getD level.toNat (0, 0)).2 : ℤ))
    (hne : downs ≠ []) (hpos : ∀ d ∈ downs, d ≠ 0) :
    renderedExtent (dzDimsOf w h) level col row =
      (min (tile_size : ℤ)
        ((((dzDimsOf w h).getD level.toNat (0, 0)).1 : ℤ) - col * (tile_size : ℤ)),
       min (tile_size : ℤ)
        ((((dzDimsOf w h).getD level.toNat (0, 0)).2 : ℤ) - row * (tile_size : ℤ))) ∧
    (∃ buf : TileBuffer,
      gpu_render_tile_buffer ops w h downs (dzDimsOf w h) level col row = Except.ok buf ∧
      buf.height = tile_size ∧ buf.width = tile_size ∧
      (renderedExtent (dzDimsOf w h) level col row ≠ ((tile_size : ℤ), (tile_size : ℤ)) →
        buf.px = fun i j =>
          if i < (renderedExtent (dzDimsOf w h) level col row).2.toNat ∧
             j < (renderedExtent (dzDimsOf w h) level col row).1.toNat
          then renderedContent ops w h downs (dzDimsOf w h) level col row i j
          else Pix.zero)) ∧
    renderedExtent (dzDimsOf 10000 8000) 14 19 15 = (272, 320) := by
  refine ⟨rfl, render_ok ops w h downs level col row hw hh h0 hlt hx hy hne hpos, ?_⟩
  simp only [renderedExtent, dzDimsOf, maxLevelOf_10000_8000]
  decide

/-- Witness instantiating `C5_visible_extent_and_padding` at the 10000 by
8000 image, level 14, column 19, row 15. -/
theorem C5_visible_extent_and_padding_witness :
    renderedExtent (dzDimsOf 10000 8000) 14 19 15 = (272, 320) :=
  (C5_visible_extent_and_padding constOps 10000 8000 [1] 14 19 15
    (by decide) (by decide) (by decide)
    (by simp only [dzDimsOf, maxLevelOf_10000_8000]; decide)
    (by simp only [dzDimsOf, maxLevelOf_10000_8000]; decide)
    (by simp only [dzDimsOf, maxLevelOf_10000_8000]; decide)
    (by decide) (by decide)).2.2

/-! ## Task record store (postgres_utils.py) and lifecycle services
(inference.py).  The current UTC time produced by
`sys_utils.get_utc_timestamp` is passed in as the abstract parameter `now`
(modelled from the spec, see the file header), and external HTTP calls are
passed in as oracles. -/

/-- A slide row (`postgres_utils.Slide`), restricted to the fields the
embedded operations read. -/
structure SlideRec where
  id : Nat
  owner_id : Nat
  type : String
deriving DecidableEq, Repr

/-- An inference-task row (`postgres_utils.InferenceTask`). -/
structure TaskRec where
  id : Nat
  inference_task_id : String
  slide_id : Nat
  user_id : Nat
  state : String
  confidence : Option ℚ
  created_at : String
  completed_at : Option String
  message : Option String
deriving DecidableEq, Repr

/-- The relational store. -/
structure Db where
  slides : List SlideRec
  tasks : List TaskRec
deriving DecidableEq, Repr

/-- Models `postgres_utils.get_slide_by_id`: first slide with the given id
owned by the given user. -/
def get_slide_by_id (db : Db) (slide_id owner_id : Nat) : Option SlideRec :=
  db.slides.find? (fun s => s.id == slide_id && s.owner_id == owner_id)

/-- The `InferenceTask JOIN Slide ... Slide.owner_id == user_id` ownership
condition used by the task queries. -/
def taskOwned (db : Db) (t : TaskRec) (user_id : Nat) : Bool :=
  (db.slides.find? (fun s => s.id == t.slide_id)).any (fun s => s.owner_id == user_id)

/-- Models `postgres_utils.get_task_by_id`: first task with the given
internal id whose slide is owned by the given user. -/
def get_task_by_id (db : Db) (task_id user_id : Nat) : Option TaskRec :=
  db.tasks.find? (fun t => t.id == task_id && taskOwned db t user_id)

/-- Replace the first list entry satisfying `p` by its image under `f`;
models the SQLAlchemy `first()` row selection followed by `setattr`. -/
def replaceFirst (p : TaskRec → Bool) (f : TaskRec → TaskRec) : List TaskRec → List TaskRec
  | [] => []
  | t :: ts => if p t then f t :: ts else t :: replaceFirst p f ts

/-- The field updates applied by both task-update operations at their call
sites: `state`, `message` and `completed_at` (all attributes of the model,
so every `setattr` lands). -/
def setTaskFields (t : TaskRec) (state message completed_at : String) : TaskRec :=
  { t with state := state, message := some message, completed_at := some completed_at }

/-- Models `postgres_utils.update_task` (keyed by internal id with ownership
check) at its call sites' keyword arguments; returns the updated store and
the updated row when found. -/
def update_task (db : Db) (task_id user_id : Nat)
    (state message completed_at : String) : Db × Option TaskRec :=
  match get_task_by_id db task_id user_id with
  | none => (db, none)
  | some t =>
      ({ db with tasks := (replaceFirst (fun u => u.id == task_id && taskOwned db u user_id)
          (fun u => setTaskFields u state message completed_at) db.tasks) },
       some (setTaskFields t state message completed_at))

/-- Models `postgres_utils.update_task_by_inference_task_id`: keyed by the
external job id, with no ownership check and no state validation. -/
def update_task_by_inference_task_id (db : Db)
    (inference_task_id state message completed_at : String) : Db × Option TaskRec :=
  match db.tasks.find? (fun t => t.inference_task_id == inference_task_id) with
  | none => (db, none)
  | some t =>
      ({ db with tasks := (replaceFirst (fun u => u.inference_task_id == inference_task_id)
          (fun u => setTaskFields u state message completed_at) db.tasks) },
       some (setTaskFields t state message completed_at))

/-- Models `postgres_utils.create_task`: inserts a fresh row (fresh primary
key) and returns it. -/
def create_task (db : Db) (now : String) (slide_id user_id : Nat)
    (inference_task_id state : String) (confidence : ℚ) (message : String) :
    Db × TaskRec :=
  let newId := (db.tasks.map (fun t => t.id)).foldr max 0 + 1
  let t : TaskRec := ⟨newId, inference_task_id, slide_id, user_id, state,
    some confidence, now, none, some message⟩
  ({ db with tasks := db.tasks ++ [t] }, t)

/-- The `id`/`state`/`message` response dictionary returned by
`start_inference` and `cancel_task`. -/
structure ActionResp where
  id : String
  state : String
  message : String
deriving DecidableEq, Repr

/-- A call made to the external compute service. -/
inductive ExtCall where
  | cancelInference (inference_task_id : String)
  | postInference (slide_id : Nat)
deriving DecidableEq, Repr

/-- Models `inference.cancel_task` after the `int(task_id)` parse: ownership
check, the terminal-state idempotent short circuit (no external call, no
store write), and otherwise the external cancel followed by the task update
stamped with the current time.  `cancelService` is the external
`DELETE /inference/tasks/{id}` call, returning the state it reports. -/
def cancel_task (db : Db) (cancelService : String → Except PyExc String)
    (now : String) (task_id user_id : Nat) :
    Db × List ExtCall × Except PyExc ActionResp :=
  match get_task_by_id db task_id user_id with
  | none => (db, [], Except.error (PyExc.valueError ErrorMessage.RESOURCE_NOT_FOUND))
  | some task =>
      if task.state ∈ TaskState.TERMINAL then
        (db, [], Except.ok ⟨toString task.id, task.state,
          TaskMessage.alreadyTerminal task.state⟩)
      else
        match cancelService task.inference_task_id with
        | Except.error e => (db, [ExtCall.cancelInference task.inference_task_id], Except.error e)
        | Except.ok newState =>
            let db2 := (update_task db task_id user_id newState TaskMessage.CANCELLED now).1
            (db2, [ExtCall.cancelInference task.inference_task_id],
             Except.ok ⟨toString task.id, newState, TaskMessage.CANCELLED⟩)

/-- Models `inference.start_inference`: ownership check, the external
`POST /inference` call (the oracle returns the external job id and initial
state), then task creation. -/
def start_inference (db : Db)
    (startService : Nat → Except PyExc (String × String)) (now : String)
    (slide_id user_id : Nat) (confidence : ℚ) :
    Db × Except PyExc ActionResp :=
  match get_slide_by_id db slide_id user_id with
  | none => (db, Except.error (PyExc.valueError ErrorMessage.RESOURCE_NOT_FOUND))
  | some _ =>
      match startService slide_id with
      | Except.error e => (db, Except.error e)
      | Except.ok (itid, state) =>
          let r := create_task db now slide_id user_id itid state confidence TaskMessage.QUEUED
          (r.1, Except.ok ⟨toString r.2.id, state, TaskMessage.QUEUED⟩)

/-- The webhook acknowledgement returned by `handle_webhook_callback`. -/
structure WebhookAck where
  inference_task_id : String
  state : String
  message : String
  received_at : String
deriving DecidableEq, Repr

/-- Models `inference.handle_webhook_callback`: secret check (empty or
mismatched key is Unauthorized, before any lookup), then an unconditional
update of state/message/completed_at keyed by the external job id, stamping
the server's current time `now` (the caller-supplied `timestamp` argument is
never used), and NotFound when the job id is unknown. -/
def handle_webhook_callback (cfgKey : String) (db : Db) (now : String)
    (api_key inference_task_id state message timestamp : String) :
    Db × Except PyExc WebhookAck :=
  if api_key = "" then (db, Except.error (PyExc.valueError ErrorMessage.UNAUTHORIZED))
  else if api_key ≠ cfgKey then
    (db, Except.error (PyExc.valueError ErrorMessage.UNAUTHORIZED))
  else
    let iso_timestamp := now
    match update_task_by_inference_task_id db inference_task_id state message iso_timestamp with
    | (db2, some _) =>
        (db2, Except.ok ⟨inference_task_id, state, TaskMessage.STATUS_UPDATED, iso_timestamp⟩)
    | (db2, none) =>
        (db2, Except.error (PyExc.valueError ErrorMessage.RESOURCE_NOT_FOUND))

/-! ## Python call semantics for the two broken predictions calls
(inference.get_task_predictions line 245, viewer.get_predictions line 114) -/

/-- The parameter list of `slide_utils.ensure_predictions_local`
(source line 286): its only parameter is `slide_id`. -/
def ensure_predictions_local_params : List String := ["slide_id"]

/-- The top-level names defined in module `utils/slide_utils.py`.
`ensure_predictions_local_async` is not among them. -/
def slide_utils_module_names : List String :=
  ["nj", "_executor", "SLIDE_INFO_CACHE", "CACHE_LOCK",
   "_downloads_in_progress", "_downloads_lock",
   "_best_slide_level", "_load_slide_info",
   "_download_predictions_from_s3", "_download_slide_from_s3",
   "gpu_render_tile", "get_slide_info_cached", "get_cache_info",
   "clear_cache", "load_inference_file",
   "ensure_slide_local_async", "ensure_predictions_local"]

/-- Python keyword-argument binding for a call made with keyword arguments
only: an unexpected keyword, or a required parameter left unbound, raises
`TypeError` before the callee body runs. -/
def bindKwargs (params kwargs : List String) : Except PyExc Unit :=
  if kwargs.all (fun k => params.contains k) && params.all (fun p => kwargs.contains p)
  then Except.ok () else Except.error (PyExc.typeError "")

/-- Python module attribute lookup: `module.name` raises `AttributeError`
when `name` is not defined in the module. -/
def moduleAttr (module : List String) (name : String) : Except PyExc Unit :=
  if module.contains name then Except.ok () else Except.error (PyExc.attributeError "")

/-- Models `inference.get_task_predictions` up to the call
`slide_utils.ensure_predictions_local(inference_task_id=...)`; everything
after that call (file loads and segment assembly) is the abstract
continuation `rest`. -/
def get_task_predictions {α : Type} (db : Db) (rest : Unit → Except PyExc α)
    (task_id user_id : Nat) : Except PyExc α :=
  match get_task_by_id db task_id user_id with
  | none => Except.error (PyExc.valueError ErrorMessage.RESOURCE_NOT_FOUND)
  | some task =>
      if task.state ≠ TaskState.SUCCESS then
        Except.error (PyExc.valueError ErrorMessage.INVALID_STATE)
      else
        match get_slide_by_id db task.slide_id user_id with
        | none => Except.error (PyExc.valueError ErrorMessage.RESOURCE_NOT_FOUND)
        | some _ =>
            (bindKwargs ensure_predictions_local_params ["inference_task_id"]).bind
              (fun _ => rest ())

/-- Models `viewer.get_predictions` up to the attribute lookup
`slide_utils.ensure_predictions_local_async`; everything after it is the
abstract continuation `rest`. -/
def viewer_get_predictions {α : Type} (db : Db) (rest : Unit → Except PyExc α)
    (slide_id user_id : Nat) : Except PyExc α :=
  match get_slide_by_id db slide_id user_id with
  | none => Except.error (PyExc.valueError ("Slide " ++ toString slide_id ++ " not found"))
  | some _ =>
      (moduleAttr slide_utils_module_names "ensure_predictions_local_async").bind
        (fun _ => rest ())

/-- Finding again after replacing the first match, when the replacement still
matches, yields the replacement. -/
theorem find?_replaceFirst_same (p : TaskRec → Bool) (f : TaskRec → TaskRec)
    (l : List TaskRec) (t : TaskRec) (hfind : l.find? p = some t)
    (hf : p (f t) = true) : (replaceFirst p f l).find? p = some (f t) := by
  induction l with
  | nil => simp at hfind
  | cons u us ih =>
      by_cases hu : p u
      · rw [List.find?_cons_of_pos _ hu] at hfind
        injection hfind with h
        subst h
        rw [replaceFirst, if_pos hu, List.find?_cons_of_pos _ hf]
      · rw [List.find?_cons_of_neg _ hu] at hfind
        rw [replaceFirst, if_neg hu, List.find?_cons_of_neg _ hu]
        exact ih hfind

/-- Example fixtures: a slide owned by user 7 and a task for it in the
terminal state SUCCESS. -/
def exSlide : SlideRec := ⟨1, 7, "svs"⟩

def exTaskS : TaskRec :=
  ⟨1, "job-1", 1, 7, TaskState.SUCCESS, none, "T0", some "T1", some "done"⟩

def exDb : Db := ⟨[exSlide], [exTaskS]⟩

def exCancelSvc : String → Except PyExc String := fun _ => Except.ok "REVOKED"

def exStartSvc : Nat → Except PyExc (String × String) :=
  fun _ => Except.ok ("job-9", "PENDING")

/-- C9: cancelling a task that is already in a terminal state returns success
with the already-terminal message, makes no call to the external compute
service, and leaves the store (hence the task record, including
`completed_at`) entirely unchanged. -/
theorem C9_cancel_terminal_frame (db : Db)
    (cancelService : String → Except PyExc String) (now : String)
    (task_id user_id : Nat) (t : TaskRec)
    (hfind : get_task_by_id db task_id user_id = some t)
    (hterm : t.state ∈ TaskState.TERMINAL) :
    cancel_task db cancelService now task_id user_id =
      (db, [], Except.ok ⟨toString t.id, t.state, TaskMessage.alreadyTerminal t.state⟩) := by
  simp only [cancel_task, hfind]
  rw [if_pos hterm]

/-- Witness instantiating `C9_cancel_terminal_frame` on a SUCCESS task. -/
theorem C9_cancel_terminal_frame_witness :
    cancel_task exDb exCancelSvc "T2" 1 7 =
      (exDb, [], Except.ok ⟨toString exTaskS.id, exTaskS.state,
        TaskMessage.alreadyTerminal exTaskS.state⟩) :=
  C9_cancel_terminal_frame exDb exCancelSvc "T2" 1 7 exTaskS (by decide) (by decide)

/-- C10: an accepted webhook update (valid secret, known external job id)
stamps both the task's `completed_at` and the acknowledgement's `received_at`
with the server's current time `now`, ignores the caller-supplied `timestamp`
argument entirely, and stamps `completed_at` even when the delivered state is
non-terminal. -/
theorem C10_webhook_timestamps (cfgKey : String) (db : Db) (now : String)
    (api_key itid state message ts1 ts2 : String) (t : TaskRec)
    (hk1 : api_key ≠ "") (hk2 : api_key = cfgKey)
    (hfind : db.tasks.find? (fun u => u.inference_task_id == itid) = some t) :
    (handle_webhook_callback cfgKey db now api_key itid state message ts1).2 =
      Except.ok ⟨itid, state, TaskMessage.STATUS_UPDATED, now⟩ ∧
    (handle_webhook_callback cfgKey db now api_key itid state message ts1).1.tasks.find?
      (fun u => u.inference_task_id == itid) = some (setTaskFields t state message now) ∧
    (setTaskFields t state message now).completed_at = some now ∧
    handle_webhook_callback cfgKey db now api_key itid state message ts1 =
      handle_webhook_callback cfgKey db now api_key itid state message ts2 := by
  have hne2 : ¬ api_key ≠ cfgKey := fun hn => hn hk2
  have hp : ((setTaskFields t state message now).inference_task_id == itid) = true := by
    have h0 := List.find?_some hfind
    simpa [setTaskFields] using h0
  refine ⟨?_, ?_, rfl, rfl⟩
  · simp only [handle_webhook_callback, if_neg hk1, if_neg hne2,
      update_task_by_inference_task_id, hfind]
  · simp only [handle_webhook_callback, if_neg hk1, if_neg hne2,
      update_task_by_inference_task_id, hfind]
    exact find?_replaceFirst_same _ _ _ _ hfind hp

/-- Witness instantiating `C10_webhook_timestamps` with the non-terminal
state STARTED delivered for the known job `job-1`. -/
theorem C10_webhook_timestamps_witness :
    (handle_webhook_callback "key" exDb "T3" "key" "job-1" TaskState.STARTED "m" "ts").2 =
      Except.ok ⟨"job-1", TaskState.STARTED, TaskMessage.STATUS_UPDATED, "T3"⟩ ∧
    (setTaskFields exTaskS TaskState.STARTED "m" "T3").completed_at = some "T3" :=
  ⟨(C10_webhook_timestamps "key" exDb "T3" "key" "job-1" TaskState.STARTED "m" "ts" "ts"
      exTaskS (by decide) (by decide) (by decide)).1,
   (C10_webhook_timestamps "key" exDb "T3" "key" "job-1" TaskState.STARTED "m" "ts" "ts"
      exTaskS (by decide) (by decide) (by decide)).2.2.1⟩

/-- C1 counterexample: the terminal-state monotonicity invariant fails on the
webhook path.  Store a task in the terminal state SUCCESS and deliver a
webhook carrying the non-terminal state STARTED with a valid secret: the
update is accepted and the task's state becomes STARTED, a transition out of
a terminal state that is not an idempotent re-delivery. -/
theorem C1_counterexample :
    exTaskS.state = TaskState.SUCCESS ∧
    TaskState.SUCCESS ∈ TaskState.TERMINAL ∧
    TaskState.STARTED ∉ TaskState.TERMINAL ∧
    (handle_webhook_callback "key" exDb "T3" "key" "job-1" TaskState.STARTED "m" "ts").1.tasks.find?
      (fun u => u.inference_task_id == "job-1") =
      some (setTaskFields exTaskS TaskState.STARTED "m" "T3") := by
  refine ⟨rfl, by decide, by decide, by decide⟩

/-- C1 (amended): task state transitions are monotonic toward a terminal
state on the `start` and `cancel` paths — `cancel` on a terminal task leaves
the store unchanged and `start` only appends a fresh record — but `onWebhook`
with a valid secret updates a known task's state, message and completion time
unconditionally, so it can move a terminal task to any delivered state
(terminal or not); for an unknown external job id it fails with NotFound and
changes nothing. -/
theorem C1_terminal_state_transitions (db : Db)
    (cancelService : String → Except PyExc String)
    (startService : Nat → Except PyExc (String × String))
    (cfgKey now : String) (task_id user_id : Nat) (t : TaskRec)
    (itid state message ts : String)
    (hterm : t.state ∈ TaskState.TERMINAL) :
    (get_task_by_id db task_id user_id = some t →
      (cancel_task db cancelService now task_id user_id).1 = db) ∧
    (∀ slide_id conf, t ∈ db.tasks →
      t ∈ (start_inference db startService now slide_id user_id conf).1.tasks) ∧
    (cfgKey ≠ "" → db.tasks.find? (fun u => u.inference_task_id == itid) = some t →
      (handle_webhook_callback cfgKey db now cfgKey itid state message ts).1.tasks.find?
        (fun u => u.inference_task_id == itid) = some (setTaskFields t state message now)) ∧
    (cfgKey ≠ "" → db.tasks.find? (fun u => u.inference_task_id == itid) = none →
      (handle_webhook_callback cfgKey db now cfgKey itid state message ts).2 =
        Except.error (PyExc.valueError ErrorMessage.RESOURCE_NOT_FOUND) ∧
      (handle_webhook_callback cfgKey db now cfgKey itid state message ts).1 = db) := by
  refine ⟨?_, ?_, ?_, ?_⟩
  · intro hfind
    simp only [cancel_task, hfind]
    rw [if_pos hterm]
  · intro slide_id conf hmem
    simp only [start_inference]
    cases hslide : get_slide_by_id db slide_id user_id with
    | none => exact hmem
    | some s =>
        cases hsvc : startService slide_id with
        | error e => exact hmem
        | ok r => simp only [create_task, List.mem_append]; exact Or.inl hmem
  · intro hk hfind
    have hp : ((setTaskFields t state message now).inference_task_id == itid) = true := by
      have h0 := List.find?_some hfind
      simpa [setTaskFields] using h0
    simp only [handle_webhook_callback, if_neg hk, if_neg (fun hn => hn rfl :
      ¬ cfgKey ≠ cfgKey), update_task_by_inference_task_id, hfind]
    exact find?_replaceFirst_same _ _ _ _ hfind hp
  · intro hk hnone
    constructor <;>
      simp only [handle_webhook_callback, if_neg hk, if_neg (fun hn => hn rfl :
        ¬ cfgKey ≠ cfgKey), update_task_by_inference_task_id, hnone]

/-- Witness instantiating `C1_terminal_state_transitions`: redelivering the
same terminal state SUCCESS to the SUCCESS task `job-1` is accepted, and the
cancel path leaves the store unchanged. -/
theorem C1_terminal_state_transitions_witness :
    ((cancel_task exDb exCancelSvc "T3" 1 7).1 = exDb) ∧
    ((handle_webhook_callback "key" exDb "T3" "key" "job-1" TaskState.SUCCESS "m" "ts").1.tasks.find?
      (fun u => u.inference_task_id == "job-1") =
      some (setTaskFields exTaskS TaskState.SUCCESS "m" "T3")) :=
  ⟨(C1_terminal_state_transitions exDb exCancelSvc exStartSvc "key" "T3" 1 7 exTaskS
      "job-1" TaskState.SUCCESS "m" "ts" (by decide)).1 (by decide),
   (C1_terminal_state_transitions exDb exCancelSvc exStartSvc "key" "T3" 1 7 exTaskS
      "job-1" TaskState.SUCCESS "m" "ts" (by decide)).2.2.1 (by decide) (by decide)⟩

/-- C2: with all ownership and SUCCESS preconditions satisfied, both
predictions-retrieval operations raise during the predictions
materialization call and never return a predictions result, whatever the
remainder of the computation would have produced: `get_task_predictions`
passes the keyword argument `inference_task_id` to a function whose only
parameter is `slide_id` (a `TypeError`), and the viewer's `get_predictions`
looks up `slide_utils.ensure_predictions_local_async`, which is not defined
in `slide_utils` (an `AttributeError`). -/
theorem C2_predictions_retrieval_raises {α β : Type} (db : Db)
    (rest1 : Unit → Except PyExc α) (rest2 : Unit → Except PyExc β)
    (task_id user_id slide_id : Nat) (t : TaskRec)
    (hfind : get_task_by_id db task_id user_id = some t)
    (hsucc : t.state = TaskState.SUCCESS)
    (hslide : (get_slide_by_id db t.slide_id user_id).isSome = true)
    (hslide2 : (get_slide_by_id db slide_id user_id).isSome = true) :
    (get_task_predictions db rest1 task_id user_id = Except.error (PyExc.typeError "") ∧
      ∀ v, get_task_predictions db rest1 task_id user_id ≠ Except.ok v) ∧
    (viewer_get_predictions db rest2 slide_id user_id =
        Except.error (PyExc.attributeError "") ∧
      ∀ v, viewer_get_predictions db rest2 slide_id user_id ≠ Except.ok v) := by
  obtain ⟨s1, hs1⟩ := Option.isSome_iff_exists.mp hslide
  obtain ⟨s2, hs2⟩ := Option.isSome_iff_exists.mp hslide2
  have h1 : get_task_predictions db rest1 task_id user_id =
      Except.error (PyExc.typeError "") := by
    simp only [get_task_predictions, hfind, hs1]
    rw [if_neg (fun hn => hn hsucc)]
    rfl
  have h2 : viewer_get_predictions db rest2 slide_id user_id =
      Except.error (PyExc.attributeError "") := by
    simp only [viewer_get_predictions, hs2]
    rfl
  exact ⟨⟨h1, fun v hv => by rw [h1] at hv; exact absurd hv (by simp)⟩,
         ⟨h2, fun v hv => by rw [h2] at hv; exact absurd hv (by simp)⟩⟩

/-- Witness instantiating `C2_predictions_retrieval_raises` on the fixture
store: task 1 (state SUCCESS) owned by user 7 on slide 1. -/
theorem C2_predictions_retrieval_raises_witness :
    get_task_predictions exDb (fun _ => Except.ok 0) 1 7 =
      Except.error (PyExc.typeError "") ∧
    viewer_get_predictions exDb (fun _ => Except.ok 0) 1 7 =
      Except.error (PyExc.attributeError "") :=
  ⟨(C2_predictions_retrieval_raises exDb (fun _ => Except.ok 0) (fun _ => Except.ok 0)
      1 7 1 exTaskS (by decide) (by decide) (by decide) (by decide)).1.1,
   (C2_predictions_retrieval_raises exDb (fun _ => Except.ok 0) (fun _ => Except.ok 0)
      1 7 1 exTaskS (by decide) (by decide) (by decide) (by decide)).2.1⟩

/-! ## Resource materializer, sequential effect semantics
(slide_utils.py: `_download_slide_from_s3`, `_download_predictions_from_s3`,
`ensure_slide_local_async` fast path, `ensure_predictions_local`) -/

/-- Storage configuration fields read by the materializer
(`core/config.py`). -/
structure StorageCfg where
  slide_dir : String
  prediction_dir : String
  s3_bucket_name : String
  s3_slide_folder : String
  s3_results_folder : String
deriving DecidableEq, Repr

/-- Filesystem and S3 side effects performed by the materializer. -/
inductive IoEffect where
  | makedirs (dir : String)
  | s3Head (bucket key : String)
  | s3Get (bucket key local_path : String)
deriving DecidableEq, Repr

/-- Whether an effect is a network call (`aws_utils.file_exists` is the
remote existence check, `aws_utils.download_file` the transfer). -/
def IoEffect.isNetwork : IoEffect → Bool
  | IoEffect.makedirs _ => false
  | IoEffect.s3Head _ _ => true
  | IoEffect.s3Get _ _ _ => true

/-- `os.path.join(config.settings.slide_dir, f"{slide_id}.{ext}")`. -/
def localSlidePath (cfg : StorageCfg) (slide_id : Nat) (ext : String) : String :=
  cfg.slide_dir ++ "/" ++ toString slide_id ++ "." ++ ext

/-- `os.path.join(config.settings.prediction_dir, f"{slide_id}.pkl")`. -/
def localPredictionsPath (cfg : StorageCfg) (slide_id : Nat) : String :=
  cfg.prediction_dir ++ "/" ++ toString slide_id ++ ".pkl"

/-- Models `_download_slide_from_s3`: create the directory, check remote
existence, then download; `ValueError` when the object is absent remotely.
`remoteExists` is the value the S3 existence check returns. -/
def download_slide_from_s3 (cfg : StorageCfg) (remoteExists : Bool)
    (slide_id : Nat) (ext : String) : List IoEffect × Except PyExc String :=
  let local_path := localSlidePath cfg slide_id ext
  let s3_key := cfg.s3_slide_folder ++ "/" ++ toString slide_id ++ "." ++ ext
  if remoteExists then
    ([IoEffect.makedirs cfg.slide_dir, IoEffect.s3Head cfg.s3_bucket_name s3_key,
      IoEffect.s3Get cfg.s3_bucket_name s3_key local_path],
     Except.ok local_path)
  else
    ([IoEffect.makedirs cfg.slide_dir, IoEffect.s3Head cfg.s3_bucket_name s3_key],
     Except.error (PyExc.valueError
       ("Slide " ++ toString slide_id ++ " not found in storage")))

/-- Models `_download_predictions_from_s3` the same way. -/
def download_predictions_from_s3 (cfg : StorageCfg) (remoteExists : Bool)
    (slide_id : Nat) : List IoEffect × Except PyExc String :=
  let pkl_path := localPredictionsPath cfg slide_id
  let s3_key := cfg.s3_results_folder ++ "/" ++ toString slide_id ++ ".pkl"
  if remoteExists then
    ([IoEffect.makedirs cfg.prediction_dir, IoEffect.s3Head cfg.s3_bucket_name s3_key,
      IoEffect.s3Get cfg.s3_bucket_name s3_key pkl_path],
     Except.ok pkl_path)
  else
    ([IoEffect.makedirs cfg.prediction_dir, IoEffect.s3Head cfg.s3_bucket_name s3_key],
     Except.error (PyExc.valueError
       ("Predictions not found for slide " ++ toString slide_id)))

/-- Sequential (single caller, no concurrent download registered) semantics
of `ensure_slide_local_async`: the fast path returns the local path with no
effects when the file exists; otherwise the caller registers, re-checks (the
file is still absent in this uncontended run) and downloads. -/
def ensure_slide_local_seq (cfg : StorageCfg) (localExists remoteExists : Bool)
    (slide_id : Nat) (ext : String) : List IoEffect × Except PyExc String :=
  let local_path := localSlidePath cfg slide_id ext
  if localExists then ([], Except.ok local_path)
  else
    let dl := download_slide_from_s3 cfg remoteExists slide_id ext
    (dl.1, dl.2.map (fun _ => local_path))

/-- Models `ensure_predictions_local`: the local-existence fast path is
present in the source only as a commented-out block (with a TODO about
multiple prediction files per slide), so the function always downloads. -/
def ensure_predictions_local (cfg : StorageCfg) (localExists remoteExists : Bool)
    (slide_id : Nat) : List IoEffect × Except PyExc String :=
  let pkl_path := localPredictionsPath cfg slide_id
  let dl := download_predictions_from_s3 cfg remoteExists slide_id
  (dl.1, dl.2.map (fun _ => pkl_path))

/-- Example storage configuration for concrete evaluation. -/
def exCfg : StorageCfg := ⟨"/mnt/slides", "/mnt/predictions", "bucket", "slides", "results"⟩

/-- C8 counterexample: the already-local fast path does not hold for every
resource kind.  With the predictions file for slide 5 already present
locally, `ensure_predictions_local` still performs the remote existence
check and the transfer — network calls — instead of returning immediately. -/
theorem C8_counterexample :
    (ensure_predictions_local exCfg true true 5).1 =
      [IoEffect.makedirs "/mnt/predictions", IoEffect.s3Head "bucket" "results/5.pkl",
       IoEffect.s3Get "bucket" "results/5.pkl" "/mnt/predictions/5.pkl"] ∧
    (IoEffect.s3Head "bucket" "results/5.pkl").isNetwork = true := by
  exact ⟨rfl, rfl⟩

/-- C8 (amended): when the local file already exists, the slide
materializer returns that path immediately with no effect at all (no
directory creation, no remote existence check, no transfer); the predictions
materializer, whose fast path is commented out in the source, performs the
remote existence check (and, when the object exists remotely, the transfer)
even when the local file exists. -/
theorem C8_local_fast_path (cfg : StorageCfg) (remoteExists : Bool)
    (slide_id : Nat) (ext : String) :
    ensure_slide_local_seq cfg true remoteExists slide_id ext =
      ([], Except.ok (localSlidePath cfg slide_id ext)) ∧
    IoEffect.s3Head cfg.s3_bucket_name
        (cfg.s3_results_folder ++ "/" ++ toString slide_id ++ ".pkl") ∈
      (ensure_predictions_local cfg true remoteExists slide_id).1 := by
  constructor
  · rfl
  · cases remoteExists <;>
      simp [ensure_predictions_local, download_predictions_from_s3]

/-! ## Download coordination machine (`ensure_slide_local_async`,
slide_utils.py lines 211-283).

Each concurrent caller of `ensure_slide_local_async` for the same slide is a
small program stepped by an arbitrary interleaving: check the local file
(fast path), take `_downloads_lock` and either register a fresh
`asyncio.Event` in `_downloads_in_progress` (becoming the downloader) or
find one registered (becoming a waiter on that event), double-check the
local file, run the download in the executor, then set the event and pop the
registry entry (the `set`/`finally pop` pair is taken as one atomic step
with the download completion: a caller arriving between them would wait on
an already-set event and proceed identically), while waiters block until
their event is set and then re-check the local file.  `fs` is whether the
local file exists, `entry` the registry entry for this slide's key, `evSet`
the set-flags of the events allocated so far, `transfers` the number of
download attempts performed, and the oracle gives the outcome of the
download guarded by each registered event. -/

/-- Outcome of one guarded download attempt: success, object absent remotely
(`_download_slide_from_s3` raises `ValueError` after the existence check,
with no transfer), or a transfer failure (`aws_utils.download_file`
propagates a `botocore` `ClientError`). -/
inductive DlOutcome where
  | ok
  | notFoundRemote
  | transferFailed
deriving DecidableEq, Repr

/-- The waiter's error message (source line 283). -/
def dlFailedMsg (slide_id : Nat) : String :=
  "Download of slide " ++ toString slide_id ++ " failed in another request"

/-- `_download_slide_from_s3`'s absent-object message (source line 110). -/
def slideNotFoundMsg (slide_id : Nat) : String :=
  "Slide " ++ toString slide_id ++ " not found in storage"

instance {ε α : Type} [DecidableEq ε] [DecidableEq α] : DecidableEq (Except ε α) :=
  fun x y =>
    match x, y with
    | Except.ok a, Except.ok b =>
        if h : a = b then isTrue (h ▸ rfl) else isFalse (fun hh => h (Except.ok.inj hh))
    | Except.error a, Except.error b =>
        if h : a = b then isTrue (h ▸ rfl) else isFalse (fun hh => h (Except.error.inj hh))
    | Except.ok _, Except.error _ => isFalse (fun hh => Except.noConfusion hh)
    | Except.error _, Except.ok _ => isFalse (fun hh => Except.noConfusion hh)

/-- Program counter of one `ensure_slide_local_async` caller. -/
inductive DlPc where
  | start
  | atLock
  | checking (ev : Nat)
  | transferring (ev : Nat)
  | waiting (ev : Nat)
  | recheck
  | done (r : Except PyExc String)
deriving DecidableEq, Repr

/-- The event id a caller inside the registered (downloader) section holds. -/
def critEv : DlPc → Option Nat
  | DlPc.checking e => some e
  | DlPc.transferring e => some e
  | _ => none

/-- Shared state of the coordination machine for one materialization key. -/
structure DlState (n : Nat) where
  fs : Bool
  entry : Option Nat
  evSet : List Bool
  transfers : Nat
  pcs : Fin n → DlPc

/-- Replace one caller's program counter. -/
def setPc {n : Nat} (s : DlState n) (i : Fin n) (pc : DlPc) : DlState n :=
  { s with pcs := Function.update s.pcs i pc }

theorem pcs_setPc {n : Nat} (s : DlState n) (i : Fin n) (pc : DlPc) (j : Fin n) :
    (setPc s i pc).pcs j = if j = i then pc else s.pcs j :=
  Function.update_apply s.pcs i pc j

/-- One interleaving step by caller `i`. -/
def dlStep {n : Nat} (path : String) (slide_id : Nat) (oracle : Nat → DlOutcome)
    (s : DlState n) (i : Fin n) : DlState n :=
  match s.pcs i with
  | DlPc.start =>
      if s.fs then setPc s i (DlPc.done (Except.ok path)) else setPc s i DlPc.atLock
  | DlPc.atLock =>
      match s.entry with
      | some e => setPc s i (DlPc.waiting e)
      | none =>
          { setPc s i (DlPc.checking s.evSet.length) with
            entry := some s.evSet.length, evSet := s.evSet ++ [false] }
  | DlPc.checking e =>
      if s.fs then
        { setPc s i (DlPc.done (Except.ok path)) with
          entry := none, evSet := s.evSet.set e true }
      else setPc s i (DlPc.transferring e)
  | DlPc.transferring e =>
      match oracle e with
      | DlOutcome.ok =>
          { setPc s i (DlPc.done (Except.ok path)) with
            fs := true, entry := none, evSet := s.evSet.set e true,
            transfers := s.transfers + 1 }
      | DlOutcome.notFoundRemote =>
          { setPc s i (DlPc.done (Except.error
              (PyExc.valueError (slideNotFoundMsg slide_id)))) with
            entry := none, evSet := s.evSet.set e true }
      | DlOutcome.transferFailed =>
          { setPc s i (DlPc.done (Except.error (PyExc.clientError ""))) with
            entry := none, evSet := s.evSet.set e true,
            transfers := s.transfers + 1 }
  | DlPc.waiting e =>
      if s.evSet.getD e false then setPc s i DlPc.recheck else s
  | DlPc.recheck =>
      if s.fs then setPc s i (DlPc.done (Except.ok path))
      else setPc s i (DlPc.done (Except.error
        (PyExc.valueError (dlFailedMsg slide_id))))
  | DlPc.done _ => s

/-- Initial state for N callers with the object absent locally. -/
def dlInit (n : Nat) : DlState n := ⟨false, none, [], 0, fun _ => DlPc.start⟩

/-- Run a schedule (an arbitrary interleaving of caller steps). -/
def dlRun {n : Nat} (path : String) (slide_id : Nat) (oracle : Nat → DlOutcome)
    (s : DlState n) (tr : List (Fin n)) : DlState n :=
  tr.foldl (dlStep path slide_id oracle) s

theorem getD_append_singleton_false (l : List Bool) (e : Nat) :
    (l ++ [false]).getD e false = l.getD e false := by
  induction l generalizing e with
  | nil => cases e <;> rfl
  | cons b l ih =>
      cases e with
      | zero => rfl
      | succ e2 => simpa using ih e2

/-- Inductive invariant of the machine when every download attempt succeeds
(the all-success scenario of the single-flight property). -/
structure DlInv {n : Nat} (path : String) (s : DlState n) : Prop where
  fs_transfers : s.fs = true → s.transfers = 1
  transfers_fs : s.fs = false → s.transfers = 0
  crit_unique : ∀ i j : Fin n, (critEv (s.pcs i)).isSome = true →
    (critEv (s.pcs j)).isSome = true → i = j
  crit_entry : ∀ (i : Fin n) (e : Nat), critEv (s.pcs i) = some e → s.entry = some e
  transferring_fs : ∀ (i : Fin n) (e : Nat), s.pcs i = DlPc.transferring e → s.fs = false
  evset_fs : ∀ e : Nat, s.evSet.getD e false = true → s.fs = true
  recheck_fs : ∀ i : Fin n, s.pcs i = DlPc.recheck → s.fs = true
  done_ok : ∀ (i : Fin n) (r : Except PyExc String), s.pcs i = DlPc.done r →
    r = Except.ok path
  done_fs : ∀ (i : Fin n) (r : Except PyExc String), s.pcs i = DlPc.done r →
    s.fs = true

theorem dlInit_inv {n : Nat} (path : String) : DlInv path (dlInit n) := by
  refine ⟨?_, ?_, ?_, ?_, ?_, ?_, ?_, ?_, ?_⟩ <;>
    simp [dlInit, critEv, List.getD]

/-- Updating one caller's program counter preserves mutual exclusion of the
registered (downloader) section when the new counter is outside the section
or the caller was already inside it. -/
theorem crit_unique_update {n : Nat} {s : DlState n} {i : Fin n} {pc : DlPc}
    (hold : ∀ j k : Fin n, (critEv (s.pcs j)).isSome = true →
      (critEv (s.pcs k)).isSome = true → j = k)
    (hok : critEv pc = none ∨ (critEv (s.pcs i)).isSome = true) :
    ∀ j k : Fin n, (critEv ((setPc s i pc).pcs j)).isSome = true →
      (critEv ((setPc s i pc).pcs k)).isSome = true → j = k := by
  intro j k hj hk
  simp only [setPc, Function.update_apply] at hj hk
  by_cases hji : j = i <;> by_cases hki : k = i
  · rw [hji, hki]
  · rw [if_pos hji] at hj
    rw [if_neg hki] at hk
    rcases hok with hnone | hicrit
    · rw [hnone] at hj
      simp at hj
    · exact absurd (hold k i hk hicrit) hki
  · rw [if_neg hji] at hj
    rw [if_pos hki] at hk
    rcases hok with hnone | hicrit
    · rw [hnone] at hk
      simp at hk
    · exact absurd (hold j i hj hicrit) hji
  · rw [if_neg hji] at hj
    rw [if_neg hki] at hk
    exact hold j k hj hk

/-- One step of any caller preserves the all-success invariant. -/
theorem dlStep_inv {n : Nat} (path : String) (slide_id : Nat)
    (s : DlState n) (i : Fin n) (h : DlInv path s) :
    DlInv path (dlStep path slide_id (fun _ => DlOutcome.ok) s i) := by
  cases hpc : s.pcs i with
  | start =>
      by_cases hfs : s.fs = true
      · simp only [dlStep, hpc, if_pos hfs]
        refine ⟨h.fs_transfers, h.transfers_fs,
          crit_unique_update h.crit_unique (Or.inl rfl), ?_, ?_, h.evset_fs, ?_, ?_,
          fun _ _ _ => hfs⟩
        · intro j e hj
          simp only [setPc, Function.update_apply] at hj
          by_cases hji : j = i
          · rw [if_pos hji] at hj
            simp [critEv] at hj
          · rw [if_neg hji] at hj
            exact h.crit_entry j e hj
        · intro j e hj
          simp only [setPc, Function.update_apply] at hj
          by_cases hji : j = i
          · rw [if_pos hji] at hj
            simp at hj
          · rw [if_neg hji] at hj
            exact h.transferring_fs j e hj
        · intro j hj
          simp only [setPc, Function.update_apply] at hj
          by_cases hji : j = i
          · rw [if_pos hji] at hj
            simp at hj
          · rw [if_neg hji] at hj
            exact h.recheck_fs j hj
        · intro j r hj
          simp only [setPc, Function.update_apply] at hj
          by_cases hji : j = i
          · rw [if_pos hji] at hj
            injection hj with h2
            exact h2.symm
          · rw [if_neg hji] at hj
            exact h.done_ok j r hj
      · simp only [dlStep, hpc, if_neg hfs]
        refine ⟨h.fs_transfers, h.transfers_fs,
          crit_unique_update h.crit_unique (Or.inl rfl), ?_, ?_, h.evset_fs, ?_, ?_, ?_⟩ <;>
          · intro j
            first
            | (intro e hj
               simp only [setPc, Function.update_apply] at hj
               by_cases hji : j = i
               · rw [if_pos hji] at hj
                 simp [critEv] at hj
               · rw [if_neg hji] at hj
                 first
                 | exact h.crit_entry j e hj
                 | exact h.transferring_fs j e hj)
            | (intro hj
               simp only [setPc, Function.update_apply] at hj
               by_cases hji : j = i
               · rw [if_pos hji] at hj
                 simp at hj
               · rw [if_neg hji] at hj
                 exact h.recheck_fs j hj)
            | (intro r hj
               simp only [setPc, Function.update_apply] at hj
               by_cases hji : j = i
               · rw [if_pos hji] at hj
                 simp at hj
               · rw [if_neg hji] at hj
                 first
                 | exact h.done_ok j r hj
                 | exact h.done_fs j r hj)
  | atLock =>
      cases hent : s.entry with
      | some e =>
          simp only [dlStep, hpc, hent]
          refine ⟨h.fs_transfers, h.transfers_fs,
            crit_unique_update h.crit_unique (Or.inl rfl), ?_, ?_, h.evset_fs, ?_, ?_, ?_⟩ <;>
            · intro j
              first
              | (intro e2 hj
                 simp only [setPc, Function.update_apply] at hj
                 by_cases hji : j = i
                 · rw [if_pos hji] at hj
                   simp [critEv] at hj
                 · rw [if_neg hji] at hj
                   first
                   | exact h.crit_entry j e2 hj
                   | exact h.transferring_fs j e2 hj)
              | (intro hj
                 simp only [setPc, Function.update_apply] at hj
                 by_cases hji : j = i
                 · rw [if_pos hji] at hj
                   simp at hj
                 · rw [if_neg hji] at hj
                   exact h.recheck_fs j hj)
              | (intro r hj
                 simp only [setPc, Function.update_apply] at hj
                 by_cases hji : j = i
                 · rw [if_pos hji] at hj
                   simp at hj
                 · rw [if_neg hji] at hj
                   first
                   | exact h.done_ok j r hj
                   | exact h.done_fs j r hj)
      | none =>
          simp only [dlStep, hpc, hent]
          have hnocrit : ∀ j : Fin n, ¬ (critEv (s.pcs j)).isSome = true := by
            intro j hj
            obtain ⟨e2, he2⟩ := Option.isSome_iff_exists.mp hj
            have := h.crit_entry j e2 he2
            rw [hent] at this
            exact Option.noConfusion this
          refine ⟨h.fs_transfers, h.transfers_fs, ?_, ?_, ?_, ?_, ?_, ?_, ?_⟩
          · intro j k hj hk
            simp only [setPc, Function.update_apply] at hj hk
            by_cases hji : j = i <;> by_cases hki : k = i
            · rw [hji, hki]
            · rw [if_neg hki] at hk
              exact absurd hk (hnocrit k)
            · rw [if_neg hji] at hj
              exact absurd hj (hnocrit j)
            · rw [if_neg hji] at hj
              exact absurd hj (hnocrit j)
          · intro j e2 hj
            simp only [setPc, Function.update_apply] at hj
            by_cases hji : j = i
            · rw [if_pos hji] at hj
              simp only [critEv] at hj
              injection hj with h2
              rw [← h2]
            · rw [if_neg hji] at hj
              have : (critEv (s.pcs j)).isSome = true := by rw [hj]; rfl
              exact absurd this (hnocrit j)
          · intro j e2 hj
            simp only [setPc, Function.update_apply] at hj
            by_cases hji : j = i
            · rw [if_pos hji] at hj
              simp at hj
            · rw [if_neg hji] at hj
              exact h.transferring_fs j e2 hj
          · intro e2 he2
            rw [show ({ setPc s i (DlPc.checking s.evSet.length) with
                entry := some s.evSet.length,
                evSet := s.evSet ++ [false] } : DlState n).evSet = s.evSet ++ [false]
                from rfl, getD_append_singleton_false] at he2
            exact h.evset_fs e2 he2
          · intro j hj
            simp only [setPc, Function.update_apply] at hj
            by_cases hji : j = i
            · rw [if_pos hji] at hj
              simp at hj
            · rw [if_neg hji] at hj
              exact h.recheck_fs j hj
          · intro j r hj
            simp only [setPc, Function.update_apply] at hj
            by_cases hji : j = i
            · rw [if_pos hji] at hj
              simp at hj
            · rw [if_neg hji] at hj
              exact h.done_ok j r hj
          · intro j r hj
            simp only [setPc, Function.update_apply] at hj
            by_cases hji : j = i
            · rw [if_pos hji] at hj
              simp at hj
            · rw [if_neg hji] at hj
              exact h.done_fs j r hj
  | checking e =>
      have hicrit : (critEv (s.pcs i)).isSome = true := by rw [hpc]; rfl
      by_cases hfs : s.fs = true
      · simp only [dlStep, hpc, if_pos hfs]
        refine ⟨h.fs_transfers, h.transfers_fs,
          crit_unique_update h.crit_unique (Or.inr hicrit), ?_, ?_,
          fun _ _ => hfs, ?_, ?_, fun _ _ _ => hfs⟩
        · intro j e2 hj
          simp only [setPc, Function.update_apply] at hj
          by_cases hji : j = i
          · rw [if_pos hji] at hj
            simp [critEv] at hj
          · rw [if_neg hji] at hj
            have hjs : (critEv (s.pcs j)).isSome = true := by rw [hj]; rfl
            exact absurd (h.crit_unique j i hjs hicrit) hji
        · intro j e2 hj
          simp only [setPc, Function.update_apply] at hj
          by_cases hji : j = i
          · rw [if_pos hji] at hj
            simp at hj
          · rw [if_neg hji] at hj
            exact h.transferring_fs j e2 hj
        · intro j hj
          simp only [setPc, Function.update_apply] at hj
          by_cases hji : j = i
          · rw [if_pos hji] at hj
            simp at hj
          · rw [if_neg hji] at hj
            exact h.recheck_fs j hj
        · intro j r hj
          simp only [setPc, Function.update_apply] at hj
          by_cases hji : j = i
          · rw [if_pos hji] at hj
            injection hj with h2
            exact h2.symm
          · rw [if_neg hji] at hj
            exact h.done_ok j r hj
      · have hfs0 : s.fs = false := by
          revert hfs
          cases s.fs <;> simp
        simp only [dlStep, hpc, if_neg hfs]
        refine ⟨h.fs_transfers, h.transfers_fs,
          crit_unique_update h.crit_unique (Or.inr hicrit), ?_, ?_, h.evset_fs, ?_, ?_, ?_⟩
        · intro j e2 hj
          simp only [setPc, Function.update_apply] at hj
          by_cases hji : j = i
          · rw [if_pos hji] at hj
            simp only [critEv] at hj
            injection hj with h2
            rw [← h2]
            exact h.crit_entry i e (by rw [hpc]; rfl)
          · rw [if_neg hji] at hj
            exact h.crit_entry j e2 hj
        · intro j e2 hj
          simp only [setPc, Function.update_apply] at hj
          by_cases hji : j = i
          · exact hfs0
          · rw [if_neg hji] at hj
            exact h.transferring_fs j e2 hj
        · intro j hj
          simp only [setPc, Function.update_apply] at hj
          by_cases hji : j = i
          · rw [if_pos hji] at hj
            simp at hj
          · rw [if_neg hji] at hj
            exact h.recheck_fs j hj
        · intro j r hj
          simp only [setPc, Function.update_apply] at hj
          by_cases hji : j = i
          · rw [if_pos hji] at hj
            simp at hj
          · rw [if_neg hji] at hj
            exact h.done_ok j r hj
        · intro j r hj
          simp only [setPc, Function.update_apply] at hj
          by_cases hji : j = i
          · rw [if_pos hji] at hj
            simp at hj
          · rw [if_neg hji] at hj
            exact h.done_fs j r hj
  | transferring e =>
      have hicrit : (critEv (s.pcs i)).isSome = true := by rw [hpc]; rfl
      have hfs0 : s.fs = false := h.transferring_fs i e hpc
      have htr0 : s.transfers = 0 := h.transfers_fs hfs0
      simp only [dlStep, hpc]
      refine ⟨?_, ?_, crit_unique_update h.crit_unique (Or.inr hicrit),
        ?_, ?_, fun _ _ => rfl, fun _ _ => rfl, ?_, fun _ _ _ => rfl⟩
      · intro _
        show s.transfers + 1 = 1
        omega
      · intro hcon
        exact absurd hcon (by simp)
      · intro j e2 hj
        simp only [setPc, Function.update_apply] at hj
        by_cases hji : j = i
        · rw [if_pos hji] at hj
          simp [critEv] at hj
        · rw [if_neg hji] at hj
          have hjs : (critEv (s.pcs j)).isSome = true := by rw [hj]; rfl
          exact absurd (h.crit_unique j i hjs hicrit) hji
      · intro j e2 hj
        simp only [setPc, Function.update_apply] at hj
        by_cases hji : j = i
        · rw [if_pos hji] at hj
          simp at hj
        · rw [if_neg hji] at hj
          have hjs : (critEv (s.pcs j)).isSome = true := by rw [hj]; rfl
          exact absurd (h.crit_unique j i hjs hicrit) hji
      · intro j r hj
        simp only [setPc, Function.update_apply] at hj
        by_cases hji : j = i
        · rw [if_pos hji] at hj
          injection hj with h2
          exact h2.symm
        · rw [if_neg hji] at hj
          exact h.done_ok j r hj
  | waiting e =>
      by_cases hset : s.evSet.getD e false = true
      · simp only [dlStep, hpc, if_pos hset]
        have hfs : s.fs = true := h.evset_fs e hset
        refine ⟨h.fs_transfers, h.transfers_fs,
          crit_unique_update h.crit_unique (Or.inl rfl), ?_, ?_, h.evset_fs,
          fun _ _ => hfs, ?_, ?_⟩
        · intro j e2 hj
          simp only [setPc, Function.update_apply] at hj
          by_cases hji : j = i
          · rw [if_pos hji] at hj
            simp [critEv] at hj
          · rw [if_neg hji] at hj
            exact h.crit_entry j e2 hj
        · intro j e2 hj
          simp only [setPc, Function.update_apply] at hj
          by_cases hji : j = i
          · rw [if_pos hji] at hj
            simp at hj
          · rw [if_neg hji] at hj
            exact h.transferring_fs j e2 hj
        · intro j r hj
          simp only [setPc, Function.update_apply] at hj
          by_cases hji : j = i
          · rw [if_pos hji] at hj
            simp at hj
          · rw [if_neg hji] at hj
            exact h.done_ok j r hj
        · intro j r hj
          simp only [setPc, Function.update_apply] at hj
          by_cases hji : j = i
          · rw [if_pos hji] at hj
            simp at hj
          · rw [if_neg hji] at hj
            exact h.done_fs j r hj
      · simp only [dlStep, hpc, if_neg hset]
        exact h
  | recheck =>
      have hfs : s.fs = true := h.recheck_fs i hpc
      simp only [dlStep, hpc, if_pos hfs]
      refine ⟨h.fs_transfers, h.transfers_fs,
        crit_unique_update h.crit_unique (Or.inl rfl), ?_, ?_, h.evset_fs,
        ?_, ?_, fun _ _ _ => hfs⟩
      · intro j e2 hj
        simp only [setPc, Function.update_apply] at hj
        by_cases hji : j = i
        · rw [if_pos hji] at hj
          simp [critEv] at hj
        · rw [if_neg hji] at hj
          exact h.crit_entry j e2 hj
      · intro j e2 hj
        simp only [setPc, Function.update_apply] at hj
        by_cases hji : j = i
        · rw [if_pos hji] at hj
          simp at hj
        · rw [if_neg hji] at hj
          exact h.transferring_fs j e2 hj
      · intro j hj
        simp only [setPc, Function.update_apply] at hj
        by_cases hji : j = i
        · rw [if_pos hji] at hj
          simp at hj
        · rw [if_neg hji] at hj
          exact h.recheck_fs j hj
      · intro j r hj
        simp only [setPc, Function.update_apply] at hj
        by_cases hji : j = i
        · rw [if_pos hji] at hj
          injection hj with h2
          exact h2.symm
        · rw [if_neg hji] at hj
          exact h.done_ok j r hj
  | done r =>
      simp only [dlStep, hpc]
      exact h

/-- The invariant holds after any schedule from any invariant state. -/
theorem dlRun_inv {n : Nat} (path : String) (slide_id : Nat)
    (s : DlState n) (tr : List (Fin n)) (h : DlInv path s) :
    DlInv path (dlRun path slide_id (fun _ => DlOutcome.ok) s tr) := by
  induction tr generalizing s with
  | nil => exact h
  | cons i tr2 ih => exact ih _ (dlStep_inv path slide_id s i h)

/-- The registry-discipline invariant that holds for every transfer outcome:
mutual exclusion of the registered (downloader) section, and a registered
caller's event id always matching the registry entry. -/
structure DlInvGen {n : Nat} (s : DlState n) : Prop where
  crit_unique : ∀ i j : Fin n, (critEv (s.pcs i)).isSome = true →
    (critEv (s.pcs j)).isSome = true → i = j
  crit_entry : ∀ (i : Fin n) (e : Nat), critEv (s.pcs i) = some e → s.entry = some e

theorem dlInitGen_inv {n : Nat} : DlInvGen (dlInit n) := by
  constructor <;> simp [dlInit, critEv]

/-- Replacing the program counter of a caller outside the registered section
by another non-registered counter preserves the entry correspondence. -/
theorem critEntry_setPc_noncrit {n : Nat} {s : DlState n} {i : Fin n} {pc : DlPc}
    (hold : ∀ (j : Fin n) (e : Nat), critEv (s.pcs j) = some e → s.entry = some e)
    (hnc : critEv pc = none) :
    ∀ (j : Fin n) (e : Nat), critEv ((setPc s i pc).pcs j) = some e →
      s.entry = some e := by
  intro j e hj
  simp only [setPc, Function.update_apply] at hj
  by_cases hji : j = i
  · rw [if_pos hji, hnc] at hj
    exact Option.noConfusion hj
  · rw [if_neg hji] at hj
    exact hold j e hj

/-- A caller leaving the registered section (its new counter is outside it)
preserves `DlInvGen` in any state whose counters are that update, regardless
of the other state fields. -/
theorem dlInvGen_exit {n : Nat} {s : DlState n} {i : Fin n} (h : DlInvGen s)
    (hicrit : (critEv (s.pcs i)).isSome = true) (pc2 : DlPc)
    (hnc : critEv pc2 = none) (s2 : DlState n)
    (hpcs : s2.pcs = Function.update s.pcs i pc2) : DlInvGen s2 := by
  constructor
  · intro j k hj hk
    rw [hpcs, Function.update_apply] at hj hk
    by_cases hji : j = i <;> by_cases hki : k = i
    · rw [hji, hki]
    · rw [if_pos hji, hnc] at hj
      simp at hj
    · rw [if_pos hki, hnc] at hk
      simp at hk
    · rw [if_neg hji] at hj
      rw [if_neg hki] at hk
      exact h.crit_unique j k hj hk
  · intro j e2 hj
    rw [hpcs, Function.update_apply] at hj
    by_cases hji : j = i
    · rw [if_pos hji, hnc] at hj
      exact Option.noConfusion hj
    · rw [if_neg hji] at hj
      have hjs : (critEv (s.pcs j)).isSome = true := by rw [hj]; rfl
      exact absurd (h.crit_unique j i hjs hicrit) hji

/-- One step of any caller preserves the registry discipline, for every
transfer outcome. -/
theorem dlStepGen_inv {n : Nat} (path : String) (slide_id : Nat)
    (oracle : Nat → DlOutcome) (s : DlState n) (i : Fin n) (h : DlInvGen s) :
    DlInvGen (dlStep path slide_id oracle s i) := by
  cases hpc : s.pcs i with
  | start =>
      by_cases hfs : s.fs = true
      · simp only [dlStep, hpc, if_pos hfs]
        exact ⟨crit_unique_update h.crit_unique (Or.inl rfl),
          critEntry_setPc_noncrit h.crit_entry rfl⟩
      · simp only [dlStep, hpc, if_neg hfs]
        exact ⟨crit_unique_update h.crit_unique (Or.inl rfl),
          critEntry_setPc_noncrit h.crit_entry rfl⟩
  | atLock =>
      cases hent : s.entry with
      | some e =>
          simp only [dlStep, hpc, hent]
          exact ⟨crit_unique_update h.crit_unique (Or.inl rfl),
            critEntry_setPc_noncrit h.crit_entry rfl⟩
      | none =>
          simp only [dlStep, hpc, hent]
          have hnocrit : ∀ j : Fin n, ¬ (critEv (s.pcs j)).isSome = true := by
            intro j hj
            obtain ⟨e2, he2⟩ := Option.isSome_iff_exists.mp hj
            have := h.crit_entry j e2 he2
            rw [hent] at this
            exact Option.noConfusion this
          constructor
          · intro j k hj hk
            simp only [setPc, Function.update_apply] at hj hk
            by_cases hji : j = i <;> by_cases hki : k = i
            · rw [hji, hki]
            · rw [if_neg hki] at hk
              exact absurd hk (hnocrit k)
            · rw [if_neg hji] at hj
              exact absurd hj (hnocrit j)
            · rw [if_neg hji] at hj
              exact absurd hj (hnocrit j)
          · intro j e2 hj
            simp only [setPc, Function.update_apply] at hj
            by_cases hji : j = i
            · rw [if_pos hji] at hj
              simp only [critEv] at hj
              injection hj with h2
              rw [← h2]
            · rw [if_neg hji] at hj
              have : (critEv (s.pcs j)).isSome = true := by rw [hj]; rfl
              exact absurd this (hnocrit j)
  | checking e =>
      have hicrit : (critEv (s.pcs i)).isSome = true := by rw [hpc]; rfl
      by_cases hfs : s.fs = true
      · simp only [dlStep, hpc, if_pos hfs]
        exact dlInvGen_exit h hicrit (DlPc.done (Except.ok path)) rfl _ rfl
      · simp only [dlStep, hpc, if_neg hfs]
        constructor
        · exact crit_unique_update h.crit_unique (Or.inr hicrit)
        · intro j e2 hj
          simp only [setPc, Function.update_apply] at hj
          by_cases hji : j = i
          · rw [if_pos hji] at hj
            simp only [critEv] at hj
            injection hj with h2
            rw [← h2]
            exact h.crit_entry i e (by rw [hpc]; rfl)
          · rw [if_neg hji] at hj
            exact h.crit_entry j e2 hj
  | transferring e =>
      have hicrit : (critEv (s.pcs i)).isSome = true := by rw [hpc]; rfl
      simp only [dlStep, hpc]
      cases horc : oracle e with
      | ok => exact dlInvGen_exit h hicrit (DlPc.done (Except.ok path)) rfl _ rfl
      | notFoundRemote =>
          exact dlInvGen_exit h hicrit (DlPc.done (Except.error
            (PyExc.valueError (slideNotFoundMsg slide_id)))) rfl _ rfl
      | transferFailed =>
          exact dlInvGen_exit h hicrit (DlPc.done (Except.error
            (PyExc.clientError ""))) rfl _ rfl
  | waiting e =>
      by_cases hset : s.evSet.getD e false = true
      · simp only [dlStep, hpc, if_pos hset]
        exact ⟨crit_unique_update h.crit_unique (Or.inl rfl),
          critEntry_setPc_noncrit h.crit_entry rfl⟩
      · simp only [dlStep, hpc, if_neg hset]
        exact h
  | recheck =>
      by_cases hfs : s.fs = true
      · simp only [dlStep, hpc, if_pos hfs]
        exact ⟨crit_unique_update h.crit_unique (Or.inl rfl),
          critEntry_setPc_noncrit h.crit_entry rfl⟩
      · simp only [dlStep, hpc, if_neg hfs]
        exact ⟨crit_unique_update h.crit_unique (Or.inl rfl),
          critEntry_setPc_noncrit h.crit_entry rfl⟩
  | done r =>
      simp only [dlStep, hpc]
      exact h

/-- The registry discipline holds after any schedule under any oracle. -/
theorem dlRunGen_inv {n : Nat} (path : String) (slide_id : Nat)
    (oracle : Nat → DlOutcome) (s : DlState n) (tr : List (Fin n))
    (h : DlInvGen s) : DlInvGen (dlRun path slide_id oracle s tr) := by
  induction tr generalizing s with
  | nil => exact h
  | cons i tr2 ih => exact ih _ (dlStepGen_inv path slide_id oracle s i h)

/-- C7 counterexample, two failing runs of two concurrent callers on the same
absent slide.  First run (schedule 0,0,1,1,0,0,1,1): the download fails in
flight while the second caller waits; the downloading caller re-raises the
transport error (`botocore` `ClientError`, propagated unchanged by
`aws_utils.download_file` and the downloader's `raise e`) while the waiting
caller raises `ValueError` from the re-check at source line 283 — two
different exception classes, refuting "all N callers observe the same error
class".  Second run (schedule 0,1,0,0,0,1,1,1): the first caller's transfer
fails and deregisters, the second caller then registers and transfers again,
so two underlying transfers occur — refuting the unconditional "exactly one
underlying transfer occurs". -/
theorem C7_counterexample :
    (dlRun "p" 5 (fun _ => DlOutcome.transferFailed) (dlInit 2)
      [0, 0, 1, 1, 0, 0, 1, 1]).pcs 0 =
        DlPc.done (Except.error (PyExc.clientError "")) ∧
    (dlRun "p" 5 (fun _ => DlOutcome.transferFailed) (dlInit 2)
      [0, 0, 1, 1, 0, 0, 1, 1]).pcs 1 =
        DlPc.done (Except.error (PyExc.valueError (dlFailedMsg 5))) ∧
    PyExc.clientError "" ≠ PyExc.valueError (dlFailedMsg 5) ∧
    (dlRun "p" 5 (fun _ => DlOutcome.transferFailed) (dlInit 2)
      [0, 1, 0, 0, 0, 1, 1, 1]).transfers = 2 := by
  refine ⟨rfl, rfl, by decide, rfl⟩

/-- C7 (amended): for N concurrent `ensureLocal` callers of the same key
starting with the object absent locally, under every interleaving and every
transfer outcome at most one caller is ever inside the registered downloader
section (at most one outstanding transfer at any time); in a run where every
download attempt succeeds, once all callers have completed, exactly one
transfer has occurred and every caller returned the same local path.  When
transfers fail, a later caller may register and transfer again (see the
counterexample's two-transfer run), and the downloader and the waiters need
not observe the same error class: the downloader re-raises the transfer's
own error while waiters raise `ValueError`. -/
theorem C7_single_flight (n : Nat) (path : String) (slide_id : Nat) (hn : 0 < n) :
    (∀ (oracle : Nat → DlOutcome) (tr : List (Fin n)) (i j : Fin n),
      (critEv ((dlRun path slide_id oracle (dlInit n) tr).pcs i)).isSome = true →
      (critEv ((dlRun path slide_id oracle (dlInit n) tr).pcs j)).isSome = true →
      i = j) ∧
    (∀ tr : List (Fin n),
      (∀ i : Fin n, ∃ r,
        (dlRun path slide_id (fun _ => DlOutcome.ok) (dlInit n) tr).pcs i = DlPc.done r) →
      (dlRun path slide_id (fun _ => DlOutcome.ok) (dlInit n) tr).transfers = 1 ∧
      ∀ (i : Fin n) (r : Except PyExc String),
        (dlRun path slide_id (fun _ => DlOutcome.ok) (dlInit n) tr).pcs i = DlPc.done r →
        r = Except.ok path) := by
  constructor
  · intro oracle tr
    exact (dlRunGen_inv path slide_id oracle (dlInit n) tr dlInitGen_inv).crit_unique
  · intro tr hdone
    have hinv := dlRun_inv path slide_id (dlInit n) tr (dlInit_inv path)
    obtain ⟨r0, hr0⟩ := hdone ⟨0, hn⟩
    exact ⟨hinv.fs_transfers (hinv.done_fs _ _ hr0),
      fun i r hir => hinv.done_ok i r hir⟩

/-- Witness instantiating `C7_single_flight`: two callers, a schedule where
the first downloads and the second takes the fast path; exactly one transfer
occurs and both return the path. -/
theorem C7_single_flight_witness :
    (dlRun "p" 5 (fun _ => DlOutcome.ok) (dlInit 2) [0, 0, 0, 0, 1]).transfers = 1 ∧
    (dlRun "p" 5 (fun _ => DlOutcome.ok) (dlInit 2) [0, 0, 0, 0, 1]).pcs 1 =
      DlPc.done (Except.ok "p") :=
  ⟨((C7_single_flight 2 "p" 5 (by decide)).2 [0, 0, 0, 0, 1]
      (by intro i; fin_cases i <;> exact ⟨Except.ok "p", rfl⟩)).1, rfl⟩

end CytoLens
